import Mathlib

set_option autoImplicit false

/-!
# Verification of the brdr-rag-app retrieval core

A shallow embedding, in Lean 4, of the core components of the brdr-rag-app
repository: the markdown page chunker, the embedding dimension adapter, the
batched ingestion (ETL) pipeline, the SQL retrieval functions
(`keyword_search`, `vector_search`, `hybrid_search`, `advanced_rag_search`),
the Supabase service wrappers, and the RAG query orchestrator.

Conventions:
* JS/SQL text values are modelled as `List Char` (`Str` below), with the
  ASCII whitespace classes relevant to the repository's inputs.
* JS numbers and SQL floats are modelled as exact rationals (`ℚ`): floating
  behaviour is idealized to exact arithmetic, except where a division by
  zero occurs, which is modelled explicitly (see `ReduceResult`).
* External collaborators (the document source API, the embedding provider,
  the pgvector `<->` distance operator, the wall clock) are oracle
  parameters, following the spec's scoping of these as external.
-/

/-! ## String utilities shared by the embedded components -/

/-- Characters are modelled as Lean `Char`; strings as lists of characters. -/
abbrev Str := List Char

/-- Lowercasing (`toLowerCase()` / SQL `lower`), ASCII scope. -/
def lowerStr (s : Str) : Str := s.map Char.toLower

/-- The whitespace class `\s` of JS regexes / SQL, restricted to ASCII. -/
def isWsChar (c : Char) : Bool :=
  c == ' ' || c == '\t' || c == '\n' || c == '\r' || c == '\x0b' || c == '\x0c'

/-- JS `String.prototype.trim()`: strip leading and trailing whitespace. -/
def trimStr (s : Str) : Str :=
  ((s.dropWhile isWsChar).reverse.dropWhile isWsChar).reverse

/-- Worker for `splitWsRe`. The `Option` state is `some cur` while a token
`cur` (reversed) is being accumulated and `none` while inside a whitespace
run whose token has already been emitted. -/
def splitWsGo : Str → Option Str → List Str
  | [], none => [[]]
  | [], some cur => [cur.reverse]
  | c :: cs, none =>
      if isWsChar c then splitWsGo cs none else splitWsGo cs (some [c])
  | c :: cs, some cur =>
      if isWsChar c then cur.reverse :: splitWsGo cs none
      else splitWsGo cs (some (c :: cur))

/-- `s.split(/\s+/)` of JS, which is also the row set of PostgreSQL
`regexp_split_to_table(s, '\s+')`: split at maximal whitespace runs,
keeping the empty leading/trailing tokens these semantics produce. -/
def splitWsRe (s : Str) : List Str := splitWsGo s (some [])

/-- Case-insensitive containment: `s ILIKE '%' || pat || '%'` for a `pat`
free of the `%`/`_` wildcard metacharacters (all inputs relevant to the
verified claims are wildcard-free). -/
def ilikeContains (s pat : Str) : Bool :=
  decide (lowerStr pat <:+: lowerStr s)

/-- Split a string into its `'\n'`-separated lines (the line structure seen
by a JS regex with the `m` flag; the repository's markdown uses `\n`). -/
def splitNl (s : Str) : List Str := s.splitOn '\n'

/-- Reassemble `'\n'`-separated lines. -/
def joinNl (ls : List Str) : Str := List.intercalate ['\n'] ls

/-! ## §4.1 PageChunker — `MarkdownPageChunker` (renumbering variant)

Embeds the `extractPages` / `cleanPageContent` / `cleanText` methods of the
`MarkdownPageChunker` class (the variant that renumbers surviving segments
sequentially, which is the PageChunker behaviour §4.1 of the spec
describes: stop-word keyword filtering, post-clean emptiness filtering and
sequential renumbering).  The regex split on `/^## Page (\d+)$/gm` is
modelled by taking the already-split alternating list of page numbers and
page bodies as input (`parseInt` on the `\d+` capture always succeeds; the
pre-marker header element of the split is unused by the source).  The
`startIndex`/`endIndex` traceability offsets and the extracted keyword list
are not involved in any verified claim and are omitted from the chunk
record. -/

/-- A line matching `/^---+$/`: three or more dashes and nothing else. -/
def isDashRuleLine (l : Str) : Bool :=
  decide (3 ≤ l.length) && l.all (· == '-')

/-- A line matching `/^-\s*\d+\s*-$/`: a page-number footer. -/
def isPageNumFooterLine (l : Str) : Bool :=
  match l with
  | '-' :: rest =>
      let r1 := rest.dropWhile isWsChar
      let ds := r1.takeWhile Char.isDigit
      let r2 := (r1.dropWhile Char.isDigit).dropWhile isWsChar
      decide (0 < ds.length) && r2 == ['-']
  | _ => false

/-- The literal image placeholder `![Image](image_placeholder)`. -/
def imagePlaceholder : Str := "![Image](image_placeholder)".toList

/-- `.replace(/!\[Image\]\(image_placeholder\)/g, '')`: remove every
occurrence of the placeholder, scanning left to right. -/
def removeImagePlaceholders : Str → Str
  | [] => []
  | c :: cs =>
      if imagePlaceholder.isPrefixOf (c :: cs) then
        removeImagePlaceholders (cs.drop (imagePlaceholder.length - 1))
      else c :: removeImagePlaceholders cs
termination_by s => s.length
decreasing_by
  · simp only [List.length_drop, List.length_cons]; omega
  · simp only [List.length_cons]; omega

/-- Length of the prefix of `run` that ends at its last `'\n'`. -/
def lastNlPrefixLen (run : Str) : Nat :=
  run.length - (run.reverse.takeWhile (fun c => !(c == '\n'))).length

/-- `.replace(/\n\s*\n\s*\n/g, '\n\n')` with JS greedy semantics: at a
position holding `'\n'`, the pattern matches exactly when the maximal
whitespace run starting there contains at least three newlines, and the
(greedy) match extends through the last newline of that run; scanning
resumes after the match.  (`cs.drop (lastNlPrefixLen run - 1)` is the
remainder after the run's last newline: the run starts with the matched
`'\n'`, so `lastNlPrefixLen run ≥ 1`.) -/
def collapseBlankRuns : Str → Str
  | [] => []
  | c :: cs =>
      let run := (c :: cs).takeWhile isWsChar
      if c == '\n' && decide (3 ≤ (run.filter (· == '\n')).length) then
        '\n' :: '\n' :: collapseBlankRuns (cs.drop (lastNlPrefixLen run - 1))
      else c :: collapseBlankRuns cs
termination_by s => s.length
decreasing_by
  · simp only [List.length_drop, List.length_cons]; omega
  · simp only [List.length_cons]; omega

/-- `cleanPageContent`: strip horizontal rules, image placeholders and
page-number footer lines, collapse runs of blank lines, and trim. -/
def cleanPageContent (content : Str) : Str :=
  let s1 := joinNl ((splitNl content).map (fun l => if isDashRuleLine l then [] else l))
  let s2 := removeImagePlaceholders s1
  let s3 := joinNl ((splitNl s2).map (fun l => if isPageNumFooterLine l then [] else l))
  trimStr (collapseBlankRuns s3)

/-- The character class kept by `cleanText`: `[a-zA-Z0-9\s.,!?'"-]`. -/
def isCleanTextKeep (c : Char) : Bool :=
  c.isAlpha || c.isDigit || isWsChar c || c == '.' || c == ',' ||
  c == '!' || c == '?' || c == '\'' || c == '"' || c == '-'

/-- `cleanText`: drop every character outside the kept class. -/
def cleanText (s : Str) : Str := s.filter isCleanTextKeep

/-- `estimateTokens`: `Math.ceil(text.length / 4)`. -/
def estimateTokens (s : Str) : Nat := (s.length + 3) / 4

/-- The chunk id string `` `${docId}_page_${n}` ``. -/
def chunkIdStr (docId : Str) (n : Nat) : Str :=
  docId ++ "_page_".toList ++ (toString n).toList

/-- A page chunk as produced by `extractPages` (traceability offsets and
keyword list omitted; no verified claim involves them). -/
structure PageChunk where
  id : Str
  pageNumber : Nat
  content : Str
  cleanContent : Str
  tokens : Nat
  embedding : Option (List ℚ) := none
  deriving DecidableEq, Repr

/-- Does a page segment survive both emptiness checks of `extractPages`
(non-empty before cleaning, and non-empty after
`cleanText ∘ cleanPageContent`)? -/
def pageSegSurvives (pc : Str) : Bool :=
  !(trimStr pc).isEmpty && !(trimStr (cleanText (cleanPageContent pc))).isEmpty

/-- The page-extraction loop of `extractPages`, carrying the
`validChunkCount` accumulator.  Each element of `pageSegs` is one
`(pageNumber, pageContent)` pair of the regex split; segments that are
empty before cleaning or empty after cleaning are skipped, and surviving
segments are numbered by the running `validChunkCount` instead of their
source page number. -/
def extractPagesGo (docId : Str) : List (Nat × Str) → Nat → List PageChunk
  | [], _ => []
  | (_, pc) :: rest, validCount =>
      if (trimStr pc).isEmpty then extractPagesGo docId rest validCount
      else
        let cleanContent := cleanText (cleanPageContent pc)
        if (trimStr cleanContent).isEmpty then extractPagesGo docId rest validCount
        else
          { id := chunkIdStr docId (validCount + 1)
            pageNumber := validCount + 1
            content := trimStr pc
            cleanContent := cleanContent
            tokens := estimateTokens cleanContent } ::
          extractPagesGo docId rest (validCount + 1)

/-- `MarkdownPageChunker.extractPages` on the split page segments. -/
def extractPages (docId : Str) (pageSegs : List (Nat × Str)) : List PageChunk :=
  extractPagesGo docId pageSegs 0

theorem extractPagesGo_map_pageNumber (docId : Str) :
    ∀ (segs : List (Nat × Str)) (k : Nat),
      (extractPagesGo docId segs k).map (·.pageNumber)
        = List.range' (k + 1) ((segs.filter (fun s => pageSegSurvives s.2)).length) := by
  intro segs
  induction segs with
  | nil => intro k; simp [extractPagesGo]
  | cons s rest ih =>
      intro k
      obtain ⟨pn, pc⟩ := s
      by_cases h1 : (trimStr pc).isEmpty
      · have hs : pageSegSurvives pc = false := by
          simp [pageSegSurvives, h1]
        simp [extractPagesGo, h1, hs, ih k]
      · by_cases h2 : (trimStr (cleanText (cleanPageContent pc))).isEmpty
        · have hs : pageSegSurvives pc = false := by
            simp [pageSegSurvives, h2]
          simp [extractPagesGo, h1, h2, hs, ih k]
        · have hs : pageSegSurvives pc = true := by
            simp [pageSegSurvives, h1, h2]
          simp [extractPagesGo, h1, h2, hs, ih (k + 1), List.range'_succ]

/-- C1. For every document processed by the page chunker, the ordinals
(`pageNumber`, and the numeric component of the `chunk_id` strings) of the
returned chunks form the contiguous sequence `1..N`, where `N` is the
number of page segments that are non-empty both before and after cleaning;
a segment empty before or after cleaning is dropped entirely and reserves
no ordinal, so there are no gaps regardless of how many segments were
filtered. -/
theorem extractPages_ordinals_contiguous (docId : Str) (pageSegs : List (Nat × Str)) :
    (extractPages docId pageSegs).map (·.pageNumber)
        = List.range' 1 ((pageSegs.filter (fun s => pageSegSurvives s.2)).length) ∧
    (extractPages docId pageSegs).map (·.id)
        = (List.range' 1 ((pageSegs.filter (fun s => pageSegSurvives s.2)).length)).map
            (chunkIdStr docId) := by
  constructor
  · exact extractPagesGo_map_pageNumber docId pageSegs 0
  · have h : ∀ (segs : List (Nat × Str)) (k : Nat),
        (extractPagesGo docId segs k).map (·.id)
          = (List.range' (k + 1) ((segs.filter (fun s => pageSegSurvives s.2)).length)).map
              (chunkIdStr docId) := by
      intro segs
      induction segs with
      | nil => intro k; simp [extractPagesGo]
      | cons s rest ih =>
          intro k
          obtain ⟨pn, pc⟩ := s
          by_cases h1 : (trimStr pc).isEmpty
          · have hs : pageSegSurvives pc = false := by simp [pageSegSurvives, h1]
            simp [extractPagesGo, h1, hs, ih k]
          · by_cases h2 : (trimStr (cleanText (cleanPageContent pc))).isEmpty
            · have hs : pageSegSurvives pc = false := by simp [pageSegSurvives, h2]
              simp [extractPagesGo, h1, h2, hs, ih k]
            · have hs : pageSegSurvives pc = true := by simp [pageSegSurvives, h1, h2]
              simp [extractPagesGo, h1, h2, hs, ih (k + 1), List.range'_succ]
    exact h pageSegs 0

/-! ## §4.2 DimensionAdapter — `EmbeddingService.reduceDimension`

Embeds `reduceDimension` (the private method of `EmbeddingService`).  The
source's `this.targetDimension` constructor parameter is the explicit
`targetDim` argument here (the deployed singleton passes 384).  JS floating
arithmetic is idealized to exact rationals; `Math.floor(targetDim * 0.3)`
agrees with the rational floor at every target dimension relevant here
(including 384 and the small dimensions used in witnesses).

The final source lines compute
`scaleFactor = sqrt(Σ origᵢ²) / sqrt(Σ redᵢ²)` and return
`red.map(val => val * scaleFactor)` — with no test for a zero divisor.  A
result vector component is irrational in general, so the result is
represented by `ReduceResult`, which keeps the exact pre-scaling vector
together with the square of the scale factor (the factor itself is the
nonnegative square root); the case of a zero `reducedMagnitude`, where JS
produces an Infinity (or NaN) scale factor and hence NaN components, is the
explicit `divByZero` constructor. -/

/-- `Math.floor` on a nonnegative rational (the only use sites pass
nonnegative arguments; negatives clamp to `0`). -/
def ratFloorNat (q : ℚ) : Nat := ⌊q⌋₊

/-- `Math.floor(this.targetDimension * 0.3)`. -/
def importantCountOf (targetDim : Nat) : Nat := (targetDim * 3) / 10

/-- The inner window average of `reduceDimension`: mean of the components
in the window `[index-1, index+1]` clipped to the vector bounds
(`windowSize = 3`, `Math.floor(windowSize/2) = 1`). -/
def windowAvg (v : List ℚ) (index : Nat) : ℚ :=
  let lo := index - 1
  let hi := min (v.length - 1) (index + 1)
  let idxs := List.range' lo (hi + 1 - lo)
  ((idxs.map (fun j => v.getD j 0)).sum) / ((idxs.length : ℚ))

/-- The sampled dimensions: for `i < remainingCount`, sample position
`Math.floor(importantCount + i * step)` with
`step = (v.length - importantCount) / remainingCount`, taking the window
average at each sampled position. -/
def sampledTail (targetDim : Nat) (v : List ℚ) : List ℚ :=
  let ic := importantCountOf targetDim
  let rc := targetDim - ic
  let step : ℚ := ((v.length : ℚ) - (ic : ℚ)) / (rc : ℚ)
  (List.range rc).map (fun i => windowAvg v (ratFloorNat ((ic : ℚ) + (i : ℚ) * step)))

/-- The pre-rescaling reduced vector: the verbatim head of
`importantCount` components followed by the sampled tail. -/
def reducedPre (targetDim : Nat) (v : List ℚ) : List ℚ :=
  v.take (importantCountOf targetDim) ++ sampledTail targetDim v

/-- `v.reduce((sum, val) => sum + val * val, 0)` — the squared L2 norm. -/
def sumSq (v : List ℚ) : ℚ := v.foldl (fun s x => s + x * x) 0

/-- Result of `reduceDimension`.  `unchanged v`: the input had no more
components than the target, returned as is.  `scaled pre s`: the result is
`pre` with every component multiplied by the nonnegative factor whose
square is `s` (the source computes the factor as a quotient of square
roots).  `divByZero pre`: the pre-rescaling vector has zero magnitude and
the source divides by it — in JS the scale factor is non-finite and every
returned component is NaN. -/
inductive ReduceResult where
  | unchanged (v : List ℚ)
  | scaled (pre : List ℚ) (scaleSq : ℚ)
  | divByZero (pre : List ℚ)
  deriving DecidableEq, Repr

/-- `EmbeddingService.reduceDimension` (lines 100–141 of the source). -/
def reduceDimension (targetDim : Nat) (v : List ℚ) : ReduceResult :=
  if v.length ≤ targetDim then .unchanged v
  else
    let pre := reducedPre targetDim v
    if sumSq pre = 0 then .divByZero pre
    else .scaled pre (sumSq v / sumSq pre)

/-- The squared L2 norm of the value a `ReduceResult` denotes, when that
value is a real vector (`none` for the NaN vector of `divByZero`).  For
`scaled pre s` this is `s * sumSq pre`, which is the squared norm of the
scaled vector by `sumSq_map_mul`. -/
def resultNormSq : ReduceResult → Option ℚ
  | .unchanged v => some (sumSq v)
  | .scaled pre s => some (s * sumSq pre)
  | .divByZero _ => none

/-- Scaling every component multiplies the squared norm by the square of
the factor — the justification for the `scaled` case of `resultNormSq`. -/
theorem sumSq_map_mul (c : ℚ) (l : List ℚ) :
    sumSq (l.map (· * c)) = c * c * sumSq l := by
  have h : ∀ (a : ℚ), (l.map (· * c)).foldl (fun s x => s + x * x) (c * c * a)
      = c * c * l.foldl (fun s x => s + x * x) a := by
    induction l with
    | nil => intro a; simp
    | cons x xs ih =>
        intro a
        simp only [List.map_cons, List.foldl_cons]
        have : c * c * a + x * c * (x * c) = c * c * (a + x * x) := by ring
        rw [this, ih]
  have h0 := h 0
  simpa [sumSq] using h0

/-- The spec-described variant of the rescaling step ("If the reduced
vector's norm is zero (degenerate sampling), skip rescaling (no-op) rather
than dividing by zero") — written from the spec's words, for comparison
with `reduceDimension` as translated from the source. -/
def reduceDimensionSpec (targetDim : Nat) (v : List ℚ) : ReduceResult :=
  if v.length ≤ targetDim then .unchanged v
  else
    let pre := reducedPre targetDim v
    if sumSq pre = 0 then .scaled pre 1
    else .scaled pre (sumSq v / sumSq pre)

/-- C5 counterexample.  The vector `[0,…,0,1]` (length 10, target 4) has
nonzero norm, every sampled window misses the final component, and the
pre-rescaling reduced vector is `[0,0,0,0]` with zero norm.  The source
code does not skip rescaling in this degenerate case: it reaches the
division by the zero magnitude (`divByZero`), where the claim (and
`reduceDimensionSpec`) require the no-op result. -/
theorem reduceDimension_degenerate_counterexample :
    sumSq [0, 0, 0, 0, 0, 0, 0, 0, 0, (1 : ℚ)] ≠ 0 ∧
    reduceDimension 4 [0, 0, 0, 0, 0, 0, 0, 0, 0, (1 : ℚ)]
      = .divByZero [0, 0, 0, 0] ∧
    reduceDimensionSpec 4 [0, 0, 0, 0, 0, 0, 0, 0, 0, (1 : ℚ)]
      = .scaled [0, 0, 0, 0] 1 := by
  have hpre : reducedPre 4 [0, 0, 0, 0, 0, 0, 0, 0, 0, (1 : ℚ)] = [0, 0, 0, 0] := by
    norm_num [reducedPre, sampledTail, importantCountOf, windowAvg, ratFloorNat,
      Nat.floor_ofNat, Nat.floor_one, List.range_succ, List.range']
  refine ⟨by norm_num [sumSq], ?_, ?_⟩ <;>
    norm_num [reduceDimension, reduceDimensionSpec, hpre, sumSq]

/-- C5 (amended).  For every vector with more components than the target
dimension: when the pre-rescaling reduced vector has nonzero norm, the
returned vector's L2 norm equals the original's exactly (squared norms
agree, idealizing floating arithmetic); but when the pre-rescaling reduced
vector has zero norm, the code divides by that zero magnitude instead of
skipping the rescaling, so the result is the `divByZero` outcome (NaN
components in JS) rather than the claimed no-op. -/
theorem reduceDimension_norm (targetDim : Nat) (v : List ℚ)
    (hlen : targetDim < v.length) :
    (sumSq (reducedPre targetDim v) ≠ 0 →
      resultNormSq (reduceDimension targetDim v) = some (sumSq v)) ∧
    (sumSq (reducedPre targetDim v) = 0 →
      reduceDimension targetDim v = .divByZero (reducedPre targetDim v)) := by
  constructor
  · intro hne
    simp only [reduceDimension, not_le.mpr hlen, if_false, hne, if_neg hne, resultNormSq]
    rw [div_mul_cancel₀ _ hne]
  · intro hz
    simp [reduceDimension, not_le.mpr hlen, hz]

/-- Witness for `reduceDimension_norm`: the all-ones vector of length 5 at
target dimension 4 reduces to pre-vector `[1,1,1,1]` of norm² 4 ≠ 0, and
the rescaled result's norm² equals the original's norm² 5. -/
theorem reduceDimension_norm_witness :
    (4 : Nat) < ([1, 1, 1, 1, (1 : ℚ)] : List ℚ).length ∧
    sumSq (reducedPre 4 [1, 1, 1, 1, (1 : ℚ)]) ≠ 0 ∧
    resultNormSq (reduceDimension 4 [1, 1, 1, 1, (1 : ℚ)])
      = some (sumSq [1, 1, 1, 1, (1 : ℚ)]) := by
  have hlen : (4 : Nat) < ([1, 1, 1, 1, (1 : ℚ)] : List ℚ).length := by norm_num
  have h1 : ⌊(7 : ℚ) / 3⌋₊ = 2 := by rw [Nat.floor_eq_iff (by norm_num)]; norm_num
  have h2 : ⌊(11 : ℚ) / 3⌋₊ = 3 := by rw [Nat.floor_eq_iff (by norm_num)]; norm_num
  have hpre : reducedPre 4 [1, 1, 1, 1, (1 : ℚ)] = [1, 1, 1, 1] := by
    norm_num [reducedPre, sampledTail, importantCountOf, windowAvg, ratFloorNat,
      Nat.floor_ofNat, Nat.floor_one, List.range_succ, List.range', h1, h2]
  have hne : sumSq (reducedPre 4 [1, 1, 1, 1, (1 : ℚ)]) ≠ 0 := by
    rw [hpre]; norm_num [sumSq]
  exact ⟨hlen, hne, (reduceDimension_norm 4 [1, 1, 1, 1, (1 : ℚ)] hlen).1 hne⟩

/-! ## §4.4 RetrievalEngine — the SQL search functions

Embeds the PostgreSQL functions `keyword_search`, `vector_search`,
`hybrid_search` (advanced-functions script) and `advanced_rag_search`
(database setup script) over an abstract table: a row of
`brdr_documents_data` carries the columns the functions read.  The pgvector
distance operator `embedding <-> query_embedding` is external to the core
(spec §1 places ANN internals in the store), so searches take the partially
applied distance `dist : List ℚ → ℚ` as an oracle.  SQL `ORDER BY` leaves
the relative order of ties unspecified; the model determinizes it with the
stable `List.insertionSort`.  The date-range parameters of the SQL
functions are accepted but never used in any `WHERE` clause of the source,
and are omitted.  `metadata`/`chunk_type` pass-through columns are omitted
(no claim reads them). -/

/-- One row of the `brdr_documents_data` table. -/
structure ChunkRow where
  id : Nat
  docId : Str
  documentId : Nat
  chunkId : Int
  content : Str
  keywords : Option (List Str)
  embedding : Option (List ℚ)
  deriving DecidableEq, Repr

/-- The `search_keywords` array of `keyword_search`: distinct lowercased
whitespace-separated words of the query longer than 3 characters. -/
def searchKeywords (queryText : Str) : List Str :=
  (((splitWsRe queryText).filter (fun w => decide (3 < w.length))).map lowerStr).dedup

/-- The match condition of `keyword_search`: some query token is a
case-insensitive substring of the chunk keyword or vice versa
(`k ILIKE '%'||q||'%' OR q ILIKE '%'||k||'%'`). -/
def kwMatchCond (sks : List Str) (k : Str) : Bool :=
  sks.any (fun q => ilikeContains k q || ilikeContains q k)

/-- Exact-match test of the scoring `CASE`: `EXISTS q WHERE k = q`. -/
def kwExact (sks : List Str) (k : Str) : Bool :=
  sks.any (fun q => k == q)

/-- The `CASE` weight: `1.0` for an exact match, else `0.5`. -/
def kwCaseScore (sks : List Str) (k : Str) : ℚ :=
  if kwExact sks k then 1 else 1 / 2

/-- The `match_score` sum over the matching keywords of a chunk. -/
def keywordScoreOf (sks : List Str) (kws : List Str) : ℚ :=
  ((kws.filter (kwMatchCond sks)).map (kwCaseScore sks)).sum

/-- A row returned by the SQL `keyword_search`. -/
structure KeywordResult where
  id : Nat
  docId : Str
  content : Str
  keywords : List Str
  matchedKeywords : List Str
  matchScore : ℚ
  deriving DecidableEq, Repr

/-- The SQL function `keyword_search(query_text, match_count, …)`:
tokenize the query; over rows with non-null keywords compute the matched
keywords and the match score; keep rows with a non-empty matched array;
order by score descending; limit to `match_count`. -/
def keyword_search (queryText : Str) (matchCount : Nat)
    (table : List ChunkRow) : List KeywordResult :=
  let sks := searchKeywords queryText
  let km := (table.filter (fun r => r.keywords.isSome)).map (fun r =>
    let kws := r.keywords.getD []
    { id := r.id, docId := r.docId, content := r.content, keywords := kws
      matchedKeywords := kws.filter (kwMatchCond sks)
      matchScore := keywordScoreOf sks kws })
  let filtered := km.filter (fun r => decide (0 < r.matchedKeywords.length))
  (List.insertionSort (fun a b => b.matchScore ≤ a.matchScore) filtered).take matchCount

/-- A row returned by the SQL `vector_search`. -/
structure VecResult where
  id : Nat
  docId : Str
  content : Str
  similarity : ℚ
  deriving DecidableEq, Repr

/-- The SQL function `vector_search(query_embedding, similarity_threshold,
match_count, …)`: over rows with a non-null embedding, keep those with
`1 - (embedding <-> query) > threshold`, order by distance ascending
(equivalently similarity descending), and limit. -/
def vector_search (dist : List ℚ → ℚ) (threshold : ℚ) (matchCount : Nat)
    (table : List ChunkRow) : List VecResult :=
  let hits := table.filterMap (fun r => r.embedding.map (fun e => (r, dist e)))
  let hits := hits.filter (fun p => decide (threshold < 1 - p.2))
  ((List.insertionSort (fun a b => a.2 ≤ b.2) hits).map (fun p =>
    { id := p.1.id, docId := p.1.docId, content := p.1.content
      similarity := 1 - p.2 })).take matchCount

/-- A row returned by the SQL `hybrid_search`. -/
structure HybridResult where
  id : Nat
  docId : Str
  content : Str
  keywords : List Str
  matchedKeywords : List Str
  keywordScore : ℚ
  vectorScore : ℚ
  combinedScore : ℚ
  deriving DecidableEq, Repr

/-- The SQL function `hybrid_search(query_text, query_embedding,
keyword_weight, vector_weight, match_count, …)`: keyword and vector
searches each over-fetched at `match_count * 2` (the vector leg at the
hard-coded threshold `0.3`); keyword rows LEFT JOIN the vector rows on id
(`COALESCE(vr.vector_score, 0.0)`), UNIONed with the vector rows whose id
is absent from the keyword rows; order by combined score descending and
limit.  The `UNION` never merges rows here (the two legs are disjoint by
the anti-join and table ids are primary-key unique), so it is `++`. -/
def hybrid_search (dist : List ℚ → ℚ) (queryText : Str)
    (keywordWeight vectorWeight : ℚ) (matchCount : Nat)
    (table : List ChunkRow) : List HybridResult :=
  let kr := keyword_search queryText (matchCount * 2) table
  let vr := vector_search dist (3 / 10) (matchCount * 2) table
  let fromKeyword := kr.map (fun k =>
    let vs : ℚ :=
      match vr.find? (fun v => v.id == k.id) with
      | some v => v.similarity
      | none => 0
    { id := k.id, docId := k.docId, content := k.content
      keywords := k.keywords, matchedKeywords := k.matchedKeywords
      keywordScore := k.matchScore, vectorScore := vs
      combinedScore := k.matchScore * keywordWeight + vs * vectorWeight })
  let fromVector := (vr.filter (fun v => !(kr.any (fun k => k.id == v.id)))).map (fun v =>
    { id := v.id, docId := v.docId, content := v.content
      keywords := [], matchedKeywords := []
      keywordScore := 0, vectorScore := v.similarity
      combinedScore := v.similarity * vectorWeight })
  (List.insertionSort (fun a b => b.combinedScore ≤ a.combinedScore)
    (fromKeyword ++ fromVector)).take matchCount

theorem kwCaseScore_half_le (sks : List Str) (k : Str) :
    1 / 2 ≤ kwCaseScore sks k := by
  unfold kwCaseScore
  split
  · norm_num
  · exact le_refl _

theorem sum_kwCaseScore_nonneg (sks : List Str) (l : List Str) :
    0 ≤ (l.map (kwCaseScore sks)).sum := by
  induction l with
  | nil => simp
  | cons k ks ih =>
      simp only [List.map_cons, List.sum_cons]
      have := kwCaseScore_half_le sks k
      linarith

theorem keywordScoreOf_pos (sks : List Str) (kws : List Str)
    (h : 0 < (kws.filter (kwMatchCond sks)).length) : 0 < keywordScoreOf sks kws := by
  unfold keywordScoreOf
  obtain ⟨k, ks, hk⟩ : ∃ k ks, kws.filter (kwMatchCond sks) = k :: ks := by
    rcases hcase : kws.filter (kwMatchCond sks) with _ | ⟨k, ks⟩
    · rw [hcase] at h; simp at h
    · exact ⟨k, ks, rfl⟩
  rw [hk]
  simp only [List.map_cons, List.sum_cons]
  have h1 := kwCaseScore_half_le sks k
  have h2 := sum_kwCaseScore_nonneg sks ks
  linarith

theorem keywordScoreOf_decompose (sks : List Str) (kws : List Str) :
    keywordScoreOf sks kws
      = (((kws.filter (kwMatchCond sks)).filter (kwExact sks)).length : ℚ)
        + (((kws.filter (kwMatchCond sks)).filter (fun k => !kwExact sks k)).length : ℚ) / 2 := by
  unfold keywordScoreOf
  induction kws.filter (kwMatchCond sks) with
  | nil => simp
  | cons k ks ih =>
      by_cases hk : kwExact sks k
      · simp only [List.map_cons, List.sum_cons, List.filter_cons, hk, kwCaseScore, if_pos hk,
          Bool.not_true, ih]
        push_cast [List.length_cons]
        ring
      · have hk' : kwExact sks k = false := by simpa using hk
        simp only [List.map_cons, List.sum_cons, List.filter_cons, hk', kwCaseScore,
          Bool.not_false, if_neg hk, ih]
        push_cast [List.length_cons]
        ring

/-- The two-chunk corpus of the claim's example: keywords
`["capital","adequacy"]` and `["tier","1"]`. -/
def kwExampleTable : List ChunkRow :=
  [{ id := 1, docId := "d1".toList, documentId := 1, chunkId := 1
     content := "c1".toList
     keywords := some ["capital".toList, "adequacy".toList], embedding := none },
   { id := 2, docId := "d2".toList, documentId := 2, chunkId := 1
     content := "c2".toList
     keywords := some ["tier".toList, "1".toList], embedding := none }]

/-- The single row the example query returns, with `matchScore = 1.0`. -/
def kwExampleHit : KeywordResult :=
  { id := 1, docId := "d1".toList, content := "c1".toList
    keywords := ["capital".toList, "adequacy".toList]
    matchedKeywords := ["capital".toList], matchScore := 1 }

/-- C6.  `keyword_search` only returns chunks with a positive match score;
per returned chunk, the matched keywords are exactly those with an exact
or bidirectional-substring match against a query token, and the score is
(number of exact matches) · 1.0 + (number of substring-only matches) · 0.5
with non-matching keywords excluded; results are ranked by score
descending.  In particular the query "capital" over chunks with keywords
`["capital","adequacy"]` and `["tier","1"]` returns only the first chunk,
with score 1.0. -/
theorem keyword_search_claim :
    (∀ (q : Str) (n : Nat) (t : List ChunkRow), ∀ r ∈ keyword_search q n t,
        0 < r.matchScore ∧
        r.matchedKeywords = r.keywords.filter (kwMatchCond (searchKeywords q)) ∧
        r.matchScore
          = ((r.matchedKeywords.filter (kwExact (searchKeywords q))).length : ℚ)
            + ((r.matchedKeywords.filter (fun k => !kwExact (searchKeywords q) k)).length : ℚ)
              / 2) ∧
    (∀ (q : Str) (n : Nat) (t : List ChunkRow),
        (keyword_search q n t).Sorted (fun a b => b.matchScore ≤ a.matchScore)) ∧
    keyword_search "capital".toList 10 kwExampleTable = [kwExampleHit] := by
  refine ⟨?_, ?_, ?_⟩
  · intro q n t r hr
    unfold keyword_search at hr
    have hr1 := List.mem_of_mem_take hr
    have hr2 := (List.mem_insertionSort _).mp hr1
    have hr3 := List.mem_filter.mp hr2
    obtain ⟨row, hrow, hbuild⟩ := List.mem_map.mp hr3.1
    have hlen : 0 < r.matchedKeywords.length := by
      have := hr3.2
      simpa using this
    subst hbuild
    refine ⟨keywordScoreOf_pos _ _ (by simpa using hlen), rfl, ?_⟩
    simpa using keywordScoreOf_decompose (searchKeywords q) (row.keywords.getD [])
  · intro q n t
    haveI : IsTotal KeywordResult (fun a b => b.matchScore ≤ a.matchScore) :=
      ⟨fun a b => le_total _ _⟩
    haveI : IsTrans KeywordResult (fun a b => b.matchScore ≤ a.matchScore) :=
      ⟨fun a b c h1 h2 => le_trans h2 h1⟩
    exact (List.sorted_insertionSort _ _).sublist (List.take_sublist _ _)
  · have hsk : searchKeywords ['c', 'a', 'p', 'i', 't', 'a', 'l']
        = [['c', 'a', 'p', 'i', 't', 'a', 'l']] := by decide
    have hm1 : kwMatchCond [['c', 'a', 'p', 'i', 't', 'a', 'l']]
        ['c', 'a', 'p', 'i', 't', 'a', 'l'] = true := by decide
    have hm2 : kwMatchCond [['c', 'a', 'p', 'i', 't', 'a', 'l']]
        ['a', 'd', 'e', 'q', 'u', 'a', 'c', 'y'] = false := by decide
    have hm3 : kwMatchCond [['c', 'a', 'p', 'i', 't', 'a', 'l']]
        ['t', 'i', 'e', 'r'] = false := by decide
    have hm4 : kwMatchCond [['c', 'a', 'p', 'i', 't', 'a', 'l']] ['1'] = false := by decide
    have he1 : kwExact [['c', 'a', 'p', 'i', 't', 'a', 'l']]
        ['c', 'a', 'p', 'i', 't', 'a', 'l'] = true := by decide
    norm_num [keyword_search, hsk, kwExampleTable, kwExampleHit, keywordScoreOf,
      kwCaseScore, hm1, hm2, hm3, hm4, he1, List.filter_cons,
      List.insertionSort, List.orderedInsert]

/-- Witness for `keyword_search_claim`: its per-result part applied at the
example corpus, membership discharged by evaluation. -/
theorem keyword_search_claim_witness :
    kwExampleHit ∈ keyword_search "capital".toList 10 kwExampleTable ∧
    0 < kwExampleHit.matchScore :=
  ⟨by rw [keyword_search_claim.2.2]; exact List.mem_singleton.mpr rfl,
   (keyword_search_claim.1 "capital".toList 10 kwExampleTable kwExampleHit
      (by rw [keyword_search_claim.2.2]; exact List.mem_singleton.mpr rfl)).1⟩

/-- C7.  `hybrid_search` properties: every returned row's combined score is
the weighted fusion of the over-fetched (2×limit) keyword and vector legs
— `keywordScore*keywordWeight + vectorScore*vectorWeight` when the id is
in both legs, the single leg's score times its own weight otherwise; the
output is ranked by combined score descending and truncated to the limit,
and its length is the limit capped by the size of the union of the two
legs' id sets. -/
theorem hybrid_search_claim (dist : List ℚ → ℚ) (q : Str) (kw vw : ℚ)
    (n : Nat) (t : List ChunkRow) :
    (∀ r ∈ hybrid_search dist q kw vw n t,
      (∃ k ∈ keyword_search q (n * 2) t, k.id = r.id ∧
        ((∃ v ∈ vector_search dist (3 / 10) (n * 2) t, v.id = r.id ∧
            r.combinedScore = k.matchScore * kw + v.similarity * vw) ∨
         ((∀ v ∈ vector_search dist (3 / 10) (n * 2) t, v.id ≠ r.id) ∧
            r.combinedScore = k.matchScore * kw))) ∨
      ((∀ k ∈ keyword_search q (n * 2) t, k.id ≠ r.id) ∧
        ∃ v ∈ vector_search dist (3 / 10) (n * 2) t, v.id = r.id ∧
          r.combinedScore = v.similarity * vw)) ∧
    (hybrid_search dist q kw vw n t).Sorted
      (fun a b => b.combinedScore ≤ a.combinedScore) ∧
    (hybrid_search dist q kw vw n t).length
      = min n ((keyword_search q (n * 2) t).length
          + ((vector_search dist (3 / 10) (n * 2) t).filter
              (fun v => !((keyword_search q (n * 2) t).any
                  (fun k => k.id == v.id)))).length) := by
  refine ⟨?_, ?_, ?_⟩
  · intro r hr
    unfold hybrid_search at hr
    have hr1 := List.mem_of_mem_take hr
    have hr2 := (List.mem_insertionSort _).mp hr1
    rcases List.mem_append.mp hr2 with hl | hrv
    · obtain ⟨k, hk, hbuild⟩ := List.mem_map.mp hl
      left
      refine ⟨k, hk, ?_⟩
      rcases hfind : (vector_search dist (3 / 10) (n * 2) t).find?
          (fun v => v.id == k.id) with _ | v
      · rw [hfind] at hbuild
        subst hbuild
        refine ⟨rfl, Or.inr ⟨?_, by ring⟩⟩
        intro v hv hvid
        have := List.find?_eq_none.mp hfind v hv
        simp at this
        exact this hvid
      · rw [hfind] at hbuild
        subst hbuild
        have hvmem := List.mem_of_find?_eq_some hfind
        have hvid : v.id = k.id := by
          have := List.find?_some hfind
          simpa using this
        exact ⟨rfl, Or.inl ⟨v, hvmem, hvid, rfl⟩⟩
    · obtain ⟨v, hv, hbuild⟩ := List.mem_map.mp hrv
      have hv2 := List.mem_filter.mp hv
      right
      subst hbuild
      refine ⟨?_, v, hv2.1, rfl, rfl⟩
      intro k hk hkid
      have hany := hv2.2
      simp only [Bool.not_eq_true', List.any_eq_false] at hany
      have := hany k hk
      simp at this
      exact this hkid
  · haveI : IsTotal HybridResult (fun a b => b.combinedScore ≤ a.combinedScore) :=
      ⟨fun a b => le_total _ _⟩
    haveI : IsTrans HybridResult (fun a b => b.combinedScore ≤ a.combinedScore) :=
      ⟨fun a b c h1 h2 => le_trans h2 h1⟩
    exact (List.sorted_insertionSort _ _).sublist (List.take_sublist _ _)
  · unfold hybrid_search
    simp [List.length_take, List.length_insertionSort]

/-- One-row corpus where the row matches both the keyword leg (exact
keyword "capital") and the vector leg (distance oracle 0, similarity 1). -/
def hybTable : List ChunkRow :=
  [{ id := 1, docId := ['d'], documentId := 1, chunkId := 1, content := ['x']
     keywords := some [['c', 'a', 'p', 'i', 't', 'a', 'l']]
     embedding := some [1] }]

/-- The distance oracle placing every embedding at distance 0. -/
def hybDist0 : List ℚ → ℚ := fun _ => 0

/-- The row `hybrid_search` returns over `hybTable` for query "capital"
with weights 2/5 and 3/5: in both legs, so
`combinedScore = 1*(2/5) + 1*(3/5) = 1`. -/
def hybExampleHit : HybridResult :=
  { id := 1, docId := ['d'], content := ['x']
    keywords := [['c', 'a', 'p', 'i', 't', 'a', 'l']]
    matchedKeywords := [['c', 'a', 'p', 'i', 't', 'a', 'l']]
    keywordScore := 1, vectorScore := 1, combinedScore := 1 }

/-- Witness for `hybrid_search_claim`: the per-result part applied at the
one-row corpus, membership discharged by evaluation. -/
theorem hybrid_search_claim_witness :
    hybExampleHit ∈ hybrid_search hybDist0 ['c', 'a', 'p', 'i', 't', 'a', 'l']
      (2 / 5) (3 / 5) 5 hybTable ∧
    ((∃ k ∈ keyword_search ['c', 'a', 'p', 'i', 't', 'a', 'l'] (5 * 2) hybTable,
        k.id = hybExampleHit.id ∧
        ((∃ v ∈ vector_search hybDist0 (3 / 10) (5 * 2) hybTable,
            v.id = hybExampleHit.id ∧
            hybExampleHit.combinedScore
              = k.matchScore * (2 / 5) + v.similarity * (3 / 5)) ∨
         ((∀ v ∈ vector_search hybDist0 (3 / 10) (5 * 2) hybTable,
            v.id ≠ hybExampleHit.id) ∧
          hybExampleHit.combinedScore = k.matchScore * (2 / 5)))) ∨
     ((∀ k ∈ keyword_search ['c', 'a', 'p', 'i', 't', 'a', 'l'] (5 * 2) hybTable,
        k.id ≠ hybExampleHit.id) ∧
      ∃ v ∈ vector_search hybDist0 (3 / 10) (5 * 2) hybTable,
        v.id = hybExampleHit.id ∧
        hybExampleHit.combinedScore = v.similarity * (3 / 5))) := by
  have hsk : searchKeywords ['c', 'a', 'p', 'i', 't', 'a', 'l']
      = [['c', 'a', 'p', 'i', 't', 'a', 'l']] := by decide
  have hm1 : kwMatchCond [['c', 'a', 'p', 'i', 't', 'a', 'l']]
      ['c', 'a', 'p', 'i', 't', 'a', 'l'] = true := by decide
  have he1 : kwExact [['c', 'a', 'p', 'i', 't', 'a', 'l']]
      ['c', 'a', 'p', 'i', 't', 'a', 'l'] = true := by decide
  have hres : hybrid_search hybDist0 ['c', 'a', 'p', 'i', 't', 'a', 'l']
      (2 / 5) (3 / 5) 5 hybTable = [hybExampleHit] := by
    norm_num [hybrid_search, keyword_search, vector_search, hybTable, hybDist0,
      hybExampleHit, hsk, hm1, he1, keywordScoreOf, kwCaseScore,
      List.filter_cons, List.filterMap_cons, List.insertionSort,
      List.orderedInsert, List.find?]
  have hmem : hybExampleHit ∈ hybrid_search hybDist0 ['c', 'a', 'p', 'i', 't', 'a', 'l']
      (2 / 5) (3 / 5) 5 hybTable := by
    rw [hres]; exact List.mem_singleton.mpr rfl
  exact ⟨hmem, (hybrid_search_claim hybDist0 ['c', 'a', 'p', 'i', 't', 'a', 'l']
    (2 / 5) (3 / 5) 5 hybTable).1 hybExampleHit hmem⟩

/-- The keyword `WHERE` condition of `advanced_rag_search`: the query text
equals some keyword (`= ANY`), or some keyword contains it
case-insensitively. -/
def argMatchCond (qText : Str) (kws : List Str) : Bool :=
  kws.contains qText || kws.any (fun kw => ilikeContains kw qText)

/-- The keyword `CASE` of `advanced_rag_search`: `1.0` for an exact
`= ANY` match, `0.8` for a containment match, else `0.0`. -/
def argKeywordScore (qText : Str) (kws : List Str) : ℚ :=
  if kws.contains qText then 1
  else if kws.any (fun kw => ilikeContains kw qText) then 4 / 5
  else 0

/-- An element of the `combined_matches` CTE of `advanced_rag_search`. -/
structure CombinedMatch where
  id : Nat
  docId : Str
  documentId : Nat
  chunkId : Int
  content : Str
  similarity : ℚ
  keywordMatchScore : ℚ
  combinedScore : ℚ
  keywords : Option (List Str)
  deriving DecidableEq, Repr

/-- Build a `combined_matches` element from a table row and the coalesced
vector similarity / keyword score of its two legs:
`combined_score = similarity * 0.6 + keyword_score * 0.4`. -/
def mkCombined (r : ChunkRow) (vs ks : ℚ) : CombinedMatch :=
  { id := r.id, docId := r.docId, documentId := r.documentId
    chunkId := r.chunkId, content := r.content
    similarity := vs, keywordMatchScore := ks
    combinedScore := vs * (3 / 5) + ks * (2 / 5), keywords := r.keywords }

/-- The `top_matches` CTE: keyword matches FULL OUTER JOIN vector matches
on id (each leg contributing zero for its absent score), ordered by
combined score descending, limited to `match_count`. -/
def advancedTopMatches (dist : List ℚ → ℚ) (qText : Str) (threshold : ℚ)
    (matchCount : Nat) (table : List ChunkRow) : List CombinedMatch :=
  let km := (table.filter (fun r =>
      r.keywords.isSome && argMatchCond qText (r.keywords.getD []))).map
    (fun r => (r, argKeywordScore qText (r.keywords.getD [])))
  let vm := (table.filterMap (fun r => r.embedding.map (fun e => (r, dist e)))).filter
    (fun p => decide (threshold < 1 - p.2))
  let combined :=
    (km.map (fun p =>
      match vm.find? (fun p2 => p2.1.id == p.1.id) with
      | some p2 => mkCombined p.1 (1 - p2.2) p.2
      | none => mkCombined p.1 0 p.2)) ++
    ((vm.filter (fun p2 => !(km.any (fun p => p.1.id == p2.1.id)))).map
      (fun p2 => mkCombined p2.1 (1 - p2.2) 0))
  (List.insertionSort (fun a b => b.combinedScore ≤ a.combinedScore) combined).take
    matchCount

/-- A row of the `advanced_rag_search` result set. -/
structure ExpandedRow where
  id : Nat
  docId : Str
  documentId : Nat
  chunkId : Int
  content : Str
  similarity : ℚ
  keywordMatchScore : ℚ
  combinedScore : ℚ
  keywords : Option (List Str)
  isOriginalMatch : Bool
  originalChunkId : Int
  positionOffset : Int
  deriving DecidableEq, Repr

/-- The final `ORDER BY ec.original_chunk_id, ec.position_offset` of
`advanced_rag_search`, as a relation. -/
def expandedOrd (a b : ExpandedRow) : Prop :=
  a.originalChunkId < b.originalChunkId ∨
    (a.originalChunkId = b.originalChunkId ∧ a.positionOffset ≤ b.positionOffset)

instance : DecidableRel expandedOrd := fun a b => by
  unfold expandedOrd; infer_instance

/-- The SQL function `advanced_rag_search(query_text, query_embedding,
similarity_threshold, match_count, context_window)`: for each top match,
join the table rows of the same `doc_id` whose `chunk_id` lies within
`context_window` of the match's, tagging originality, the seed's ordinal
and the position offset; the final output is ordered by
`original_chunk_id` then `position_offset`. -/
def advanced_rag_search (dist : List ℚ → ℚ) (qText : Str) (threshold : ℚ)
    (matchCount : Nat) (contextWindow : Int) (table : List ChunkRow) :
    List ExpandedRow :=
  let tms := advancedTopMatches dist qText threshold matchCount table
  let expanded := tms.flatMap (fun tm =>
    (table.filter (fun b => b.docId == tm.docId &&
        decide (tm.chunkId - contextWindow ≤ b.chunkId) &&
        decide (b.chunkId ≤ tm.chunkId + contextWindow))).map (fun b =>
      { id := b.id, docId := b.docId, documentId := b.documentId
        chunkId := b.chunkId, content := b.content
        similarity := tm.similarity
        keywordMatchScore := tm.keywordMatchScore
        combinedScore := tm.combinedScore
        keywords := b.keywords
        isOriginalMatch := b.chunkId == tm.chunkId
        originalChunkId := tm.chunkId
        positionOffset := b.chunkId - tm.chunkId }))
  List.insertionSort expandedOrd expanded

/-- C8.  Every chunk returned by `advanced_rag_search` belongs to the same
document as its seed match: it is tagged with a top match of the same
`doc_id`, its ordinal lies within `contextWindow` of the seed's, its
`originalChunkId` is the seed's ordinal and its `positionOffset` is the
ordinal difference — the same-document join condition makes coinciding
ordinals of other documents irrelevant. -/
theorem advanced_rag_search_same_doc (dist : List ℚ → ℚ) (qText : Str)
    (threshold : ℚ) (matchCount : Nat) (contextWindow : Int)
    (table : List ChunkRow) :
    ∀ r ∈ advanced_rag_search dist qText threshold matchCount contextWindow table,
      ∃ tm ∈ advancedTopMatches dist qText threshold matchCount table,
        r.docId = tm.docId ∧ r.originalChunkId = tm.chunkId ∧
        tm.chunkId - contextWindow ≤ r.chunkId ∧
        r.chunkId ≤ tm.chunkId + contextWindow ∧
        r.positionOffset = r.chunkId - tm.chunkId ∧
        r.similarity = tm.similarity ∧
        r.keywordMatchScore = tm.keywordMatchScore ∧
        r.combinedScore = tm.combinedScore := by
  intro r hr
  unfold advanced_rag_search at hr
  have hr1 := (List.mem_insertionSort _).mp hr
  obtain ⟨tm, htm, hmem⟩ := List.mem_flatMap.mp hr1
  obtain ⟨b, hb, hbuild⟩ := List.mem_map.mp hmem
  have hbf := List.mem_filter.mp hb
  have hcond := hbf.2
  simp only [Bool.and_eq_true, beq_iff_eq, decide_eq_true_eq] at hcond
  subst hbuild
  exact ⟨tm, htm, hcond.1.1, rfl, hcond.1.2, hcond.2, rfl, rfl, rfl, rfl⟩

/-- The query text "capital". -/
def capitalQ : Str := ['c', 'a', 'p', 'i', 't', 'a', 'l']

/-- A two-document corpus for `advanced_rag_search`: document A's chunk has
ordinal 10 and keyword "capital" (exact match, keyword score 1.0);
document B's chunk has ordinal 2 and keyword "capitalization"
(containment match, keyword score 0.8).  No embeddings, so the vector leg
is empty and combined scores are 0.4 and 0.32. -/
def argTable : List ChunkRow :=
  [{ id := 1, docId := ['A'], documentId := 1, chunkId := 10, content := ['a']
     keywords := some [['c', 'a', 'p', 'i', 't', 'a', 'l']], embedding := none },
   { id := 2, docId := ['B'], documentId := 2, chunkId := 2, content := ['b']
     keywords := some [['c', 'a', 'p', 'i', 't', 'a', 'l', 'i', 'z', 'a', 't', 'i', 'o', 'n']], embedding := none }]

/-- Top match for document A (rank 1: combined score 2/5). -/
def argTopA : CombinedMatch :=
  { id := 1, docId := ['A'], documentId := 1, chunkId := 10, content := ['a']
    similarity := 0, keywordMatchScore := 1, combinedScore := 2 / 5
    keywords := some [['c', 'a', 'p', 'i', 't', 'a', 'l']] }

/-- Top match for document B (rank 2: combined score 8/25). -/
def argTopB : CombinedMatch :=
  { id := 2, docId := ['B'], documentId := 2, chunkId := 2, content := ['b']
    similarity := 0, keywordMatchScore := 4 / 5, combinedScore := 8 / 25
    keywords := some [['c', 'a', 'p', 'i', 't', 'a', 'l', 'i', 'z', 'a', 't', 'i', 'o', 'n']] }

/-- The expanded row of seed A (ordinal 10). -/
def argExpA : ExpandedRow :=
  { id := 1, docId := ['A'], documentId := 1, chunkId := 10, content := ['a']
    similarity := 0, keywordMatchScore := 1, combinedScore := 2 / 5
    keywords := some [['c', 'a', 'p', 'i', 't', 'a', 'l']]
    isOriginalMatch := true, originalChunkId := 10, positionOffset := 0 }

/-- The expanded row of seed B (ordinal 2). -/
def argExpB : ExpandedRow :=
  { id := 2, docId := ['B'], documentId := 2, chunkId := 2, content := ['b']
    similarity := 0, keywordMatchScore := 4 / 5, combinedScore := 8 / 25
    keywords := some [['c', 'a', 'p', 'i', 't', 'a', 'l', 'i', 'z', 'a', 't', 'i', 'o', 'n']]
    isOriginalMatch := true, originalChunkId := 2, positionOffset := 0 }

theorem argTable_top_eval :
    advancedTopMatches hybDist0 capitalQ (7 / 10) 3 argTable
      = [argTopA, argTopB] := by
  have hmA : argMatchCond capitalQ [['c', 'a', 'p', 'i', 't', 'a', 'l']] = true := by
    decide
  have hmB : argMatchCond capitalQ [['c', 'a', 'p', 'i', 't', 'a', 'l', 'i', 'z', 'a', 't', 'i', 'o', 'n']] = true := by decide
  have he : capitalQ = ['c', 'a', 'p', 'i', 't', 'a', 'l'] := rfl
  have hne := eq_false (by decide :
    ¬((['c', 'a', 'p', 'i', 't', 'a', 'l'] : Str)
      = ['c', 'a', 'p', 'i', 't', 'a', 'l', 'i', 'z', 'a', 't', 'i', 'o', 'n']))
  have hil : ilikeContains ['c', 'a', 'p', 'i', 't', 'a', 'l', 'i', 'z', 'a', 't', 'i', 'o', 'n']
      ['c', 'a', 'p', 'i', 't', 'a', 'l'] = true := by decide
  have hsA : argKeywordScore capitalQ [['c', 'a', 'p', 'i', 't', 'a', 'l']] = 1 := by
    simp [argKeywordScore, he]
  have hsB : argKeywordScore capitalQ
      [['c', 'a', 'p', 'i', 't', 'a', 'l', 'i', 'z', 'a', 't', 'i', 'o', 'n']] = 4 / 5 := by
    simp [argKeywordScore, he, hne, hil]
  norm_num [advancedTopMatches, argTable, argTopA, argTopB, hybDist0, hmA, hmB,
    hsA, hsB, mkCombined, List.filter_cons,
    List.filterMap_cons, List.insertionSort, List.orderedInsert, List.find?]

theorem argTable_eval :
    advanced_rag_search hybDist0 capitalQ (7 / 10) 3 0 argTable
      = [argExpB, argExpA] := by
  unfold advanced_rag_search
  rw [argTable_top_eval]
  norm_num [argTable, argTopA, argTopB, argExpA, argExpB, List.filter_cons,
    List.insertionSort, List.orderedInsert, expandedOrd]

/-- C9 counterexample.  Over `argTable`, the seeds ranked by descending
combined score are the chunks with ordinals 10 (document A, score 0.4)
then 2 (document B, score 0.32); but the output's groups appear in the
order 2, 10 — the final `ORDER BY ec.original_chunk_id` sorts the groups
by the seed's ordinal value ascending, not by seed rank. -/
theorem advanced_rag_search_order_counterexample :
    (advancedTopMatches hybDist0 capitalQ (7 / 10) 3 argTable).map
        (fun tm => tm.chunkId) = [10, 2] ∧
    argTopA.combinedScore > argTopB.combinedScore ∧
    (advanced_rag_search hybDist0 capitalQ (7 / 10) 3 0 argTable).map
        (fun r => r.originalChunkId) = [2, 10] := by
  refine ⟨?_, ?_, ?_⟩
  · rw [argTable_top_eval]; rfl
  · norm_num [argTopA, argTopB]
  · rw [argTable_eval]; rfl

/-- C9 (amended).  The output of `advanced_rag_search` is ordered by the
seed's ordinal (`original_chunk_id`) ascending and, within equal seed
ordinals, by `positionOffset` ascending.  Groups therefore appear in
seed-ordinal order — not in seed rank (descending combined score) order —
and groups of distinct seeds that share an ordinal value interleave. -/
theorem advanced_rag_search_ordered (dist : List ℚ → ℚ) (qText : Str)
    (threshold : ℚ) (matchCount : Nat) (contextWindow : Int)
    (table : List ChunkRow) :
    (advanced_rag_search dist qText threshold matchCount contextWindow
      table).Sorted expandedOrd := by
  haveI : IsTotal ExpandedRow expandedOrd := ⟨fun a b => by unfold expandedOrd; omega⟩
  haveI : IsTrans ExpandedRow expandedOrd :=
    ⟨fun a b c h1 h2 => by
      unfold expandedOrd at h1 h2 ⊢
      omega⟩
  unfold advanced_rag_search
  exact List.sorted_insertionSort _ _

/-- Witness for `advanced_rag_search_same_doc`: applied to the first
output row over `argTable` (document B's chunk), whose seed is the
document-B top match. -/
theorem advanced_rag_search_same_doc_witness :
    argExpB ∈ advanced_rag_search hybDist0 capitalQ (7 / 10) 3 0 argTable ∧
    (∃ tm ∈ advancedTopMatches hybDist0 capitalQ (7 / 10) 3 argTable,
      argExpB.docId = tm.docId ∧ argExpB.originalChunkId = tm.chunkId ∧
      tm.chunkId - 0 ≤ argExpB.chunkId ∧ argExpB.chunkId ≤ tm.chunkId + 0 ∧
      argExpB.positionOffset = argExpB.chunkId - tm.chunkId ∧
      argExpB.similarity = tm.similarity ∧
      argExpB.keywordMatchScore = tm.keywordMatchScore ∧
      argExpB.combinedScore = tm.combinedScore) := by
  have hmem : argExpB ∈ advanced_rag_search hybDist0 capitalQ (7 / 10) 3 0 argTable := by
    rw [argTable_eval]; exact List.mem_cons_self _ _
  exact ⟨hmem,
    advanced_rag_search_same_doc hybDist0 capitalQ (7 / 10) 3 0 argTable argExpB hmem⟩

/-! ## §4.4 DocumentStore wrappers — `SupabaseService`

Embeds the TS service methods `vectorSearch`, `keywordSearch` and
`advancedRAGSearch`.  A Supabase call resolves to `{data, error}` or
throws; the four cases are `DbOutcome`.  Each method's JS return type is a
plain array, but to state whether a store failure can propagate to the
caller the codomain is `Except Unit (List _)`: a rethrow would be
`.error ()`, and the translation shows every control path of the source
produces `.ok _`. -/

/-- Outcome of one Supabase call: data rows with no error; a null `data`
with no error; an `error` value; or a thrown exception / rejected
promise. -/
inductive DbOutcome (α : Type) where
  | rows (data : α)
  | nullData
  | fail
  | thrown
  deriving DecidableEq, Repr

/-- The TS `SearchResult` shape.  Of the loosely-typed `metadata` payload
only the `doc_long_title` field is retained (the single field any embedded
caller reads, via `generateDocumentLinks`). -/
structure SearchResult where
  id : Nat
  docId : Str
  content : Str
  similarity : ℚ
  textMatchScore : Option ℚ
  metaDocLongTitle : Option Str
  deriving DecidableEq, Repr

/-- A row returned by the `simple_vector_search` RPC. -/
structure VectorRpcRow where
  id : Nat
  docId : Str
  content : Str
  similarity : ℚ
  deriving DecidableEq, Repr

/-- A row of the fallback `select id, doc_id, content, metadata` query. -/
structure PlainRow where
  id : Nat
  docId : Str
  content : Str
  metaDocLongTitle : Option Str
  deriving DecidableEq, Repr

/-- A row returned by the `text_search` RPC. -/
structure TextRpcRow where
  id : Nat
  docId : Str
  content : Str
  textScore : Option ℚ
  metaDocLongTitle : Option Str
  deriving DecidableEq, Repr

/-- `SupabaseService.vectorSearch`: try the RPC; on RPC error or throw,
fall back to a direct query mapped with the placeholder similarity `0.8`;
on fallback error or throw, return `[]`.  (In the RPC branch the source
tests only `!error`, so a null `data` maps `data || []` to `[]`.) -/
def vectorSearch (rpc : DbOutcome (List VectorRpcRow))
    (fallback : DbOutcome (List PlainRow)) : Except Unit (List SearchResult) :=
  match rpc with
  | .rows data => .ok (data.map (fun it =>
      { id := it.id, docId := it.docId, content := it.content
        similarity := it.similarity, textMatchScore := none
        metaDocLongTitle := none }))
  | .nullData => .ok []
  | .fail | .thrown =>
      match fallback with
      | .rows data => .ok (data.map (fun it =>
          { id := it.id, docId := it.docId, content := it.content
            similarity := 4 / 5, textMatchScore := none
            metaDocLongTitle := it.metaDocLongTitle }))
      | .nullData => .ok []
      | .fail => .ok []
      | .thrown => .ok []

/-- `SupabaseService.keywordSearch`: try the `text_search` RPC (the source
tests `!error && data`, so a null `data` also falls through); fall back to
an `ilike` content query; on fallback error or throw, return `[]`. -/
def keywordSearch (rpc : DbOutcome (List TextRpcRow))
    (fallback : DbOutcome (List PlainRow)) : Except Unit (List SearchResult) :=
  match rpc with
  | .rows data => .ok (data.map (fun it =>
      { id := it.id, docId := it.docId, content := it.content
        similarity := 0, textMatchScore := some (it.textScore.getD 0)
        metaDocLongTitle := it.metaDocLongTitle }))
  | .nullData | .fail | .thrown =>
      match fallback with
      | .rows data => .ok (data.map (fun it =>
          { id := it.id, docId := it.docId, content := it.content
            similarity := 0, textMatchScore := none
            metaDocLongTitle := it.metaDocLongTitle }))
      | .nullData => .ok []
      | .fail => .ok []
      | .thrown => .ok []

/-- `SupabaseService.advancedRAGSearch`: a single RPC; `data || []` on
success, `[]` on error or throw. -/
def advancedRAGSearch {α : Type} (rpc : DbOutcome (List α)) :
    Except Unit (List α) :=
  match rpc with
  | .rows data => .ok data
  | .nullData => .ok []
  | .fail => .ok []
  | .thrown => .ok []

/-- C3 counterexample.  A store-connectivity failure (RPC throws and the
fallback query errors; or the single RPC errors) is returned by every
search method as the successful empty result `.ok []` — indistinguishable
from an empty corpus — not propagated as an error as the claim states. -/
theorem search_failure_swallowed_counterexample :
    vectorSearch .thrown .fail = .ok [] ∧
    keywordSearch .thrown .fail = .ok [] ∧
    advancedRAGSearch (α := ExpandedRow) .fail = .ok [] := by
  exact ⟨rfl, rfl, rfl⟩

/-- C3 (amended).  For every combination of store outcomes, each search
method returns `.ok` — an empty corpus or no matches above the threshold
yields `.ok []` (not an error), and a store-connectivity failure is also
silently converted to an empty (or fallback) success, never propagated to
the caller as an error. -/
theorem search_never_propagates (rpcV : DbOutcome (List VectorRpcRow))
    (rpcK : DbOutcome (List TextRpcRow)) (rpcA : DbOutcome (List ExpandedRow))
    (fbV fbK : DbOutcome (List PlainRow)) :
    (∃ l, vectorSearch rpcV fbV = .ok l) ∧
    (∃ l, keywordSearch rpcK fbK = .ok l) ∧
    (∃ l, advancedRAGSearch rpcA = .ok l) ∧
    vectorSearch (.rows []) fbV = .ok [] ∧
    keywordSearch (.rows []) fbK = .ok [] ∧
    advancedRAGSearch (α := ExpandedRow) (.rows []) = .ok [] := by
  refine ⟨?_, ?_, ?_, by simp [vectorSearch], by simp [keywordSearch],
    by simp [advancedRAGSearch]⟩
  · cases rpcV <;> cases fbV <;> exact ⟨_, rfl⟩
  · cases rpcK <;> cases fbK <;> exact ⟨_, rfl⟩
  · cases rpcA <;> exact ⟨_, rfl⟩

/-! ## §4.5 QueryOrchestrator — `RAGOrchestrator`

Embeds `RAGOrchestrator.processQuery` and its helpers.  The store client is
a `StoreOps` oracle record; the wall-clock phase durations measured with
`Date.now()` are an externally supplied `PerformanceMetrics` value; the
random `auditSessionId` is an input.  `processQuery` additionally returns
whether the retrieval phase ran (`false` on the cache-hit early return),
which makes the frame property of a cache hit statable. -/

/-- The `searchType` union of `QueryRequest`. -/
inductive SearchType where
  | vector
  | keyword
  | hybrid
  | advancedRag
  deriving DecidableEq, Repr

/-- The string value of a `searchType`. -/
def SearchType.toStr : SearchType → Str
  | .vector => "vector".toList
  | .keyword => "keyword".toList
  | .hybrid => "hybrid".toList
  | .advancedRag => "advanced_rag".toList

/-- The TS `QueryRequest` (optional fields as `Option`). -/
structure QueryRequest where
  query : Str
  searchType : Option SearchType
  limit : Option Nat
  useCache : Bool
  trackPerformance : Bool
  similarityThreshold : Option ℚ
  contextWindow : Option Nat
  deriving DecidableEq, Repr

/-- The TS `QueryAnalysis`. -/
structure QueryAnalysis where
  intent : Str
  entities : List Str
  keywords : List Str
  complexity : Str
  expandedQueries : List Str
  deriving DecidableEq, Repr

/-- Worker for `replaceFirst` (non-empty pattern). -/
def replaceFirstGo (pat sub : Str) : Str → Str
  | [] => []
  | c :: cs =>
      if pat.isPrefixOf (c :: cs) then sub ++ cs.drop (pat.length - 1)
      else c :: replaceFirstGo pat sub cs

/-- JS `s.replace(pat, sub)` with a string pattern: replace the first
occurrence only (an empty pattern inserts at the start). -/
def replaceFirst (pat sub s : Str) : Str :=
  if pat.isEmpty then sub ++ s else replaceFirstGo pat sub s

/-- The synonym table of `generateExpandedQueries`. -/
def synonymMap (k : Str) : Option (List Str) :=
  if k = "bank".toList then
    some ["banking".toList, "financial institution".toList]
  else if k = "regulation".toList then
    some ["rule".toList, "requirement".toList, "guideline".toList]
  else if k = "return".toList then
    some ["reporting".toList, "submission".toList, "filing".toList]
  else if k = "data".toList then
    some ["information".toList, "details".toList, "records".toList]
  else none

/-- `generateExpandedQueries`: the original query first, then one variant
per (keyword, synonym) pair in order, truncated to 3. -/
def generateExpandedQueries (originalQuery : Str) (keywords : List Str) : List Str :=
  ([originalQuery] ++ keywords.flatMap (fun kw =>
    match synonymMap kw with
    | some syns => syns.map (fun syn => replaceFirst kw syn originalQuery)
    | none => [])).take 3

/-- `analyzeQuery`: lowercase whitespace split; keywords are words longer
than 3; keyword-presence intent classification; threshold complexity;
entities are the first 5 keywords. -/
def analyzeQuery (query : Str) : QueryAnalysis :=
  let words := splitWsRe (lowerStr query)
  let keywords := words.filter (fun w => decide (3 < w.length))
  let intent : Str :=
    if words.any (fun w =>
        w == "what".toList || w == "define".toList || w == "definition".toList) then
      "definition".toList
    else if words.any (fun w =>
        w == "how".toList || w == "procedure".toList || w == "process".toList) then
      "procedure".toList
    else if words.any (fun w =>
        w == "when".toList || w == "date".toList || w == "time".toList) then
      "temporal".toList
    else if words.any (fun w =>
        w == "requirement".toList || w == "rule".toList || w == "regulation".toList) then
      "regulatory".toList
    else "general_inquiry".toList
  let complexity : Str :=
    if 15 < words.length ∨ 8 < keywords.length then "complex".toList
    else if 8 < words.length ∨ 4 < keywords.length then "moderate".toList
    else "simple".toList
  { intent := intent, entities := keywords.take 5, keywords := keywords
    complexity := complexity
    expandedQueries := generateExpandedQueries query keywords }

/-- The TS `PerformanceMetrics` (per-phase wall-clock durations). -/
structure PerformanceMetrics where
  queryAnalysisTime : Int
  embeddingGenerationTime : Int
  vectorSearchTime : Int
  contextFormattingTime : Int
  totalTime : Int
  deriving DecidableEq, Repr

/-- The TS `QueryMetrics`. -/
structure QueryMetrics where
  totalDocuments : Nat
  averageSimilarity : ℚ
  processingTimeMs : Int
  searchStrategy : Str
  embeddingTimeMs : Int
  retrievalTimeMs : Int
  deriving DecidableEq, Repr

/-- `calculateMetrics`: average of the positive similarities (0 when there
are none).  The `searchStrategy` field is the hard-coded string `'vector'`
of the source ("This should be passed from the actual strategy used"). -/
def calculateMetrics (documents : List SearchResult)
    (perf : PerformanceMetrics) : QueryMetrics :=
  let sims := (documents.map (fun d => d.similarity)).filter (fun s => decide (0 < s))
  { totalDocuments := documents.length
    averageSimilarity := if 0 < sims.length then sims.sum / (sims.length : ℚ) else 0
    processingTimeMs := perf.totalTime
    searchStrategy := "vector".toList
    embeddingTimeMs := perf.embeddingGenerationTime
    retrievalTimeMs := perf.vectorSearchTime }

/-- The TS `DocumentLink`. -/
structure DocumentLink where
  docId : Str
  title : Str
  url : Str
  similarity : ℚ
  deriving DecidableEq, Repr

/-- JS `a || b` on an optional string (empty string is falsy). -/
def jsOrStr (a : Option Str) (b : Str) : Str :=
  match a with
  | some s => if s.isEmpty then b else s
  | none => b

/-- JS `Number.prototype.toFixed(1)`, idealized to exact half-up rounding
of the rational value. -/
def toFixed1 (q : ℚ) : Str :=
  let n : Int := ⌊q * 10 + 1 / 2⌋
  let m := n.natAbs
  let s := (toString (m / 10)).toList ++ ['.'] ++ (toString (m % 10)).toList
  if n < 0 then '-' :: s else s

/-- `generateDocumentLinks`: title from `metadata?.doc_long_title || doc_id`,
the BRDR PDF url, and the document's similarity. -/
def generateDocumentLinks (documents : List SearchResult) : List DocumentLink :=
  documents.map (fun doc =>
    { docId := doc.docId
      title := jsOrStr doc.metaDocLongTitle doc.docId
      url := "https://brdr.hkma.gov.hk/eng/doc-ldg/docId/getPdf/".toList
          ++ doc.docId ++ ['/'] ++ doc.docId ++ ".pdf".toList
      similarity := doc.similarity })

/-- `formatContext`: the fallback message on no documents, else the
numbered document blocks joined by `\n---\n\n` (the similarity annotation
is omitted when the score is 0, JS falsiness). -/
def formatContext (documents : List SearchResult) : Str :=
  if documents.isEmpty then
    "No relevant documents found for your query.".toList
  else
    List.intercalate "\n---\n\n".toList (documents.enum.map (fun p =>
      "Document ".toList ++ (toString (p.1 + 1)).toList ++ [' ', '[']
        ++ p.2.docId ++ [']']
        ++ (if p.2.similarity = 0 then []
            else " (similarity: ".toList ++ toFixed1 (p.2.similarity * 100)
              ++ "%)".toList)
        ++ ":\n".toList ++ p.2.content ++ ['\n']))

/-- `formatMetricsText`. -/
def formatMetricsText (m : QueryMetrics) : Str :=
  "📊 Query Performance:\n• Documents retrieved: ".toList
    ++ (toString m.totalDocuments).toList
    ++ "\n• Average similarity: ".toList ++ toFixed1 (m.averageSimilarity * 100)
    ++ "%\n• Processing time: ".toList ++ (toString m.processingTimeMs).toList
    ++ "ms\n• Embedding generation: ".toList ++ (toString m.embeddingTimeMs).toList
    ++ "ms\n• Document retrieval: ".toList ++ (toString m.retrievalTimeMs).toList
    ++ "ms\n• Search strategy: ".toList ++ m.searchStrategy

/-- `formatDocumentLinksText`. -/
def formatDocumentLinksText (links : List DocumentLink) : Str :=
  if links.isEmpty then "No source documents available.".toList
  else
    "📄 Source Documents:\n".toList
      ++ List.intercalate ['\n'] (links.map (fun l =>
          "• ".toList ++ l.title ++ " (".toList ++ toFixed1 (l.similarity * 100)
            ++ "% relevance)".toList))

/-- `getToolsUsed`. -/
def getToolsUsed (st : SearchType) : List Str :=
  ["embedding_service".toList, "database_search".toList] ++
  match st with
  | .vector => ["vector_search".toList]
  | .keyword => ["text_search".toList]
  | .hybrid => ["vector_search".toList, "text_search".toList,
      "hybrid_ranking".toList]
  | .advancedRag => ["advanced_rag_search".toList, "keyword_search".toList,
      "vector_search".toList, "context_expansion".toList]

/-- The TS `QueryResponse`. -/
structure QueryResponse where
  documents : List SearchResult
  advancedResults : Option (List ExpandedRow)
  context : Str
  analysis : QueryAnalysis
  searchStrategy : Str
  metrics : QueryMetrics
  documentLinks : List DocumentLink
  metricsText : Str
  documentLinksText : Str
  processingTime : Int
  toolsUsed : List Str
  cacheHit : Bool
  performanceMetrics : PerformanceMetrics
  auditSessionId : Str
  deriving DecidableEq, Repr

/-- `cacheMaxSize = 100`. -/
def cacheMaxSize : Nat := 100

/-- The four phase series of `performanceStats`. -/
structure PerfStats where
  queryAnalysis : List Int
  embedding : List Int
  search : List Int
  formatting : List Int
  deriving DecidableEq, Repr

/-- The orchestrator's mutable state: the response cache (a JS `Map`,
modelled as an insertion-ordered association list) and the performance
series. -/
structure OrchState where
  cache : List (Str × QueryResponse)
  perfStats : PerfStats
  deriving DecidableEq, Repr

/-- `Map.get`: first (and only) binding of the key. -/
def cacheLookup (cache : List (Str × QueryResponse)) (k : Str) :
    Option QueryResponse :=
  (cache.find? (fun p => p.1 == k)).map (fun p => p.2)

/-- `Map.set`: update in place when the key exists (keeping its insertion
position), else append at the end. -/
def cacheSet (cache : List (Str × QueryResponse)) (k : Str)
    (v : QueryResponse) : List (Str × QueryResponse) :=
  if cache.any (fun p => p.1 == k) then
    cache.map (fun p => if p.1 == k then (k, v) else p)
  else cache ++ [(k, v)]

/-- `trimCache`: delete the first-inserted key once the size exceeds the
maximum (FIFO eviction). -/
def trimCache (cache : List (Str × QueryResponse)) :
    List (Str × QueryResponse) :=
  if cacheMaxSize < cache.length then cache.tail else cache

/-- Rendering of an optional number in a JS template literal (`undefined`
when absent). -/
def optNatStr : Option Nat → Str
  | some n => (toString n).toList
  | none => "undefined".toList

/-- Rendering of the optional similarity threshold.  (The textual
rendering of a rational differs from JS float syntax; only key identity
matters and the rendering is injective on `Option ℚ`.) -/
def optRatStr : Option ℚ → Str
  | some q => (toString q).toList
  | none => "undefined".toList

/-- JS `o || d` on an optional number (0 is falsy). -/
def jsOrNat (o : Option Nat) (d : Nat) : Nat :=
  match o with
  | some n => if n = 0 then d else n
  | none => d

/-- `request.contextWindow || 2`. -/
def cwOf (o : Option Nat) : Nat := jsOrNat o 2

/-- `getCacheKey`:
`` `${query}_${searchType}_${limit}_${similarityThreshold}_${contextWindow || 2}` ``. -/
def getCacheKey (req : QueryRequest) : Str :=
  req.query ++ ['_']
    ++ (match req.searchType with
        | some st => st.toStr
        | none => "undefined".toList) ++ ['_']
    ++ optNatStr req.limit ++ ['_']
    ++ optRatStr req.similarityThreshold ++ ['_']
    ++ (toString (cwOf req.contextWindow)).toList

/-- The store client operations the orchestrator can invoke
(`supabaseService`), as an oracle record. -/
structure StoreOps where
  keywordSearch : Str → Nat → List SearchResult
  vectorSearch : List ℚ → ℚ → Nat → List SearchResult
  advancedRAGSearch : Str → List ℚ → ℚ → Nat → Nat → List ExpandedRow

/-- `RAGOrchestrator.searchDocuments`: "Only use keyword search regardless
of the search type parameter" — every strategy argument dispatches
`supabaseService.keywordSearch(query, \x7bmatch_count: limit\x7d)`. -/
def searchDocuments (store : StoreOps) (query : Str)
    (queryEmbedding : Option (List ℚ)) (searchType : Str) (limit : Nat)
    (similarityThreshold : ℚ) : List SearchResult :=
  store.keywordSearch query limit

/-- `trackPerformanceMetrics`: push each phase duration.  (The source's
"keep only last 100" loop iterates `Object.values` of a JS `Map`, which is
empty, so no truncation ever happens.) -/
def trackPerformanceMetrics (ps : PerfStats) (m : PerformanceMetrics) :
    PerfStats :=
  { queryAnalysis := ps.queryAnalysis ++ [m.queryAnalysisTime]
    embedding := ps.embedding ++ [m.embeddingGenerationTime]
    search := ps.search ++ [m.vectorSearchTime]
    formatting := ps.formatting ++ [m.contextFormattingTime] }

/-- `RAGOrchestrator.processQuery`.  Line 82 of the source overwrites the
request's strategy: `request.searchType = 'keyword'` ("Force keyword
search only"); the cache key is computed from the overwritten request.  On
a cache hit the cached response is returned with `cacheHit := true` and a
fresh `auditSessionId`, the state untouched and no retrieval performed
(the returned flag is `false`).  Otherwise the keyword retrieval runs, the
response is assembled, cached (when `useCache`) and the performance series
updated (when `trackPerformance`). -/
def processQuery (store : StoreOps) (timing : PerformanceMetrics)
    (sessionId : Str) (st : OrchState) (req : QueryRequest) :
    QueryResponse × OrchState × Bool :=
  let req' := { req with searchType := some SearchType.keyword }
  match
    (if req'.useCache then cacheLookup st.cache (getCacheKey req') else none)
  with
  | some cached =>
      ({ cached with cacheHit := true, auditSessionId := sessionId }, st, false)
  | none =>
      let analysis := analyzeQuery req'.query
      let documents :=
        searchDocuments store req'.query none "keyword".toList
          (jsOrNat req'.limit 10) 0
      let metrics := calculateMetrics documents timing
      let documentLinks := generateDocumentLinks documents
      let response : QueryResponse :=
        { documents := documents, advancedResults := none
          context := formatContext documents, analysis := analysis
          searchStrategy := (req'.searchType.getD SearchType.vector).toStr
          metrics := metrics, documentLinks := documentLinks
          metricsText := formatMetricsText metrics
          documentLinksText := formatDocumentLinksText documentLinks
          processingTime := timing.totalTime
          toolsUsed := getToolsUsed (req'.searchType.getD SearchType.vector)
          cacheHit := false, performanceMetrics := timing
          auditSessionId := sessionId }
      let cache' :=
        if req'.useCache then trimCache (cacheSet st.cache (getCacheKey req') response)
        else st.cache
      let perf' :=
        if req.trackPerformance then trackPerformanceMetrics st.perfStats timing
        else st.perfStats
      (response, { cache := cache', perfStats := perf' }, true)

theorem cacheLookup_cons_none {p : Str × QueryResponse}
    {rest : List (Str × QueryResponse)} {k : Str}
    (h : cacheLookup (p :: rest) k = none) : cacheLookup rest k = none := by
  unfold cacheLookup at h ⊢
  rcases hpk : (p.1 == k) with _ | _
  · rw [List.find?_cons_of_neg _ (by simp [hpk])] at h
    exact h
  · rw [List.find?_cons_of_pos _ (by simp [hpk])] at h
    simp at h

theorem cacheLookup_append_single (cache : List (Str × QueryResponse))
    (k : Str) (v : QueryResponse) (h : cacheLookup cache k = none) :
    cacheLookup (cache ++ [(k, v)]) k = some v := by
  induction cache with
  | nil => simp [cacheLookup, List.find?]
  | cons p rest ih =>
      have hrest := cacheLookup_cons_none h
      unfold cacheLookup at h
      rcases hpk : (p.1 == k) with _ | _
      · simp only [List.cons_append, cacheLookup]
        rw [List.find?_cons_of_neg _ (by simp [hpk])]
        exact ih hrest
      · rw [List.find?_cons_of_pos _ (by simp [hpk])] at h
        simp at h

/-- After a miss, `Map.set` appends the fresh binding at the end, and the
FIFO trim can only evict the oldest (different) key, so the binding is
still found. -/
theorem cacheLookup_set_trim (cache : List (Str × QueryResponse)) (k : Str)
    (v : QueryResponse) (h : cacheLookup cache k = none) :
    cacheLookup (trimCache (cacheSet cache k v)) k = some v := by
  have hany : cache.any (fun p => p.1 == k) = false := by
    simp only [cacheLookup, Option.map_eq_none', List.find?_eq_none] at h
    simp only [List.any_eq_false]
    exact h
  unfold cacheSet
  rw [hany]
  simp only [Bool.false_eq_true, if_false]
  rcases cache with _ | ⟨p, rest⟩
  · simp [trimCache, cacheMaxSize, cacheLookup, List.find?]
  · have hrest := cacheLookup_cons_none h
    unfold trimCache
    split
    · simpa using cacheLookup_append_single rest k v hrest
    · exact cacheLookup_append_single (p :: rest) k v h

/-- The cache-hit branch of `processQuery`: the cached response is
returned with only `cacheHit` and `auditSessionId` replaced, no retrieval
runs, and the state is untouched. -/
theorem processQuery_hit (store : StoreOps) (timing : PerformanceMetrics)
    (sid : Str) (st : OrchState) (req : QueryRequest) (c : QueryResponse)
    (huse : req.useCache = true)
    (hhit : cacheLookup st.cache
        (getCacheKey { req with searchType := some SearchType.keyword }) = some c) :
    processQuery store timing sid st req
      = ({ c with cacheHit := true, auditSessionId := sid }, st, false) := by
  have huse' : ({ req with searchType := some SearchType.keyword } :
      QueryRequest).useCache = true := huse
  unfold processQuery
  dsimp only
  rw [if_pos huse', hhit]

/-- The cache-miss branch of `processQuery` with `useCache`: the response
is stored under the request's key (with `cacheHit = false`) and survives
the FIFO trim. -/
theorem processQuery_miss_caches (store : StoreOps)
    (timing : PerformanceMetrics) (sid : Str) (st : OrchState)
    (req : QueryRequest) (huse : req.useCache = true)
    (hmiss : cacheLookup st.cache
        (getCacheKey { req with searchType := some SearchType.keyword }) = none) :
    cacheLookup (processQuery store timing sid st req).2.1.cache
        (getCacheKey { req with searchType := some SearchType.keyword })
      = some (processQuery store timing sid st req).1 ∧
    (processQuery store timing sid st req).1.cacheHit = false := by
  have huse' : ({ req with searchType := some SearchType.keyword } :
      QueryRequest).useCache = true := huse
  unfold processQuery
  dsimp only
  rw [if_pos huse', hmiss]
  dsimp only
  rw [if_pos huse']
  exact ⟨cacheLookup_set_trim _ _ _ hmiss, rfl⟩

/-- C10.  For every pair of `processQuery` calls with `useCache = true`
and identical cache keys, the second call returns the first call's
response with every field unchanged except `cacheHit` (now `true`) and
`auditSessionId` (the second call's fresh id); it performs no retrieval
(the dispatch flag is `false`) and leaves the orchestrator state —
including the cache — exactly as the first call left it. -/
theorem processQuery_cache_hit_pair (store1 store2 : StoreOps)
    (timing1 timing2 : PerformanceMetrics) (sid1 sid2 : Str) (st : OrchState)
    (req1 req2 : QueryRequest)
    (h1 : req1.useCache = true) (h2 : req2.useCache = true)
    (hkey : getCacheKey { req2 with searchType := some SearchType.keyword }
          = getCacheKey { req1 with searchType := some SearchType.keyword }) :
    (processQuery store2 timing2 sid2
        (processQuery store1 timing1 sid1 st req1).2.1 req2).1
      = { (processQuery store1 timing1 sid1 st req1).1 with
          cacheHit := true, auditSessionId := sid2 } ∧
    (processQuery store2 timing2 sid2
        (processQuery store1 timing1 sid1 st req1).2.1 req2).2.1
      = (processQuery store1 timing1 sid1 st req1).2.1 ∧
    (processQuery store2 timing2 sid2
        (processQuery store1 timing1 sid1 st req1).2.1 req2).2.2
      = false := by
  rcases hhit : cacheLookup st.cache
      (getCacheKey { req1 with searchType := some SearchType.keyword }) with _ | c
  · have hm := processQuery_miss_caches store1 timing1 sid1 st req1 h1 hhit
    have hsecond := processQuery_hit store2 timing2 sid2
      (processQuery store1 timing1 sid1 st req1).2.1 req2
      (processQuery store1 timing1 sid1 st req1).1 h2 (by rw [hkey]; exact hm.1)
    rw [hsecond]
    refine ⟨?_, rfl, rfl⟩
    rfl
  · have hfirst := processQuery_hit store1 timing1 sid1 st req1 c h1 hhit
    have hsecond := processQuery_hit store2 timing2 sid2
      (processQuery store1 timing1 sid1 st req1).2.1 req2 c h2
      (by rw [hkey, hfirst]; exact hhit)
    rw [hsecond, hfirst]
    exact ⟨rfl, rfl, rfl⟩

/-- The empty performance series. -/
def emptyPerfStats : PerfStats :=
  { queryAnalysis := [], embedding := [], search := [], formatting := [] }

/-- A fresh orchestrator state. -/
def st0 : OrchState := { cache := [], perfStats := emptyPerfStats }

/-- A zero wall-clock oracle. -/
def timing0 : PerformanceMetrics :=
  { queryAnalysisTime := 0, embeddingGenerationTime := 0, vectorSearchTime := 0
    contextFormattingTime := 0, totalTime := 0 }

/-- A distinctive result only the vector search path would surface. -/
def vDocResult : SearchResult :=
  { id := 7, docId := ['v'], content := ['v'], similarity := 9 / 10
    textMatchScore := none, metaDocLongTitle := none }

/-- A store whose keyword search finds nothing while its vector search
finds `vDocResult` — distinguishing which strategy `processQuery` runs. -/
def storeC2 : StoreOps :=
  { keywordSearch := fun _ _ => []
    vectorSearch := fun _ _ _ => [vDocResult]
    advancedRAGSearch := fun _ _ _ _ _ => [] }

/-- A request explicitly asking for the vector strategy, without cache. -/
def reqVec : QueryRequest :=
  { query := [], searchType := some SearchType.vector, limit := none
    useCache := false, trackPerformance := false
    similarityThreshold := none, contextWindow := none }

/-- The same request with the cache enabled. -/
def reqCache : QueryRequest :=
  { query := [], searchType := some SearchType.vector, limit := none
    useCache := true, trackPerformance := false
    similarityThreshold := none, contextWindow := none }

/-- Witness for `processQuery_cache_hit_pair`: two identical cached calls
on a fresh state; the second returns the first response with only
`cacheHit`/`auditSessionId` changed, no state change, no retrieval. -/
theorem processQuery_cache_hit_pair_witness :
    (processQuery storeC2 timing0 "s2".toList
        (processQuery storeC2 timing0 "s1".toList st0 reqCache).2.1 reqCache).1
      = { (processQuery storeC2 timing0 "s1".toList st0 reqCache).1 with
          cacheHit := true, auditSessionId := "s2".toList } ∧
    (processQuery storeC2 timing0 "s2".toList
        (processQuery storeC2 timing0 "s1".toList st0 reqCache).2.1 reqCache).2.1
      = (processQuery storeC2 timing0 "s1".toList st0 reqCache).2.1 ∧
    (processQuery storeC2 timing0 "s2".toList
        (processQuery storeC2 timing0 "s1".toList st0 reqCache).2.1 reqCache).2.2
      = false :=
  processQuery_cache_hit_pair storeC2 storeC2 timing0 timing0
    "s1".toList "s2".toList st0 reqCache reqCache rfl rfl rfl

/-- C2 counterexample.  A request with `searchType = 'vector'` over a
store whose vector search would return `vDocResult`: `processQuery`
reports the strategy `'keyword'` (not the requested `'vector'`) and
returns the keyword search's empty result instead of the vector
search's — line 82 (`request.searchType = 'keyword'`, "Force keyword
search only") and `searchDocuments` ("Only use keyword search regardless
of the search type parameter") hardcode the pinning silently. -/
theorem processQuery_strategy_counterexample :
    reqVec.searchType = some SearchType.vector ∧
    (processQuery storeC2 timing0 ['s'] st0 reqVec).1.searchStrategy
      = "keyword".toList ∧
    (processQuery storeC2 timing0 ['s'] st0 reqVec).1.searchStrategy
      ≠ SearchType.vector.toStr ∧
    (processQuery storeC2 timing0 ['s'] st0 reqVec).1.documents = [] ∧
    storeC2.vectorSearch [] (1 / 2) 10 = [vDocResult] := by
  refine ⟨rfl, rfl, by decide, rfl, rfl⟩

/-- C2 (amended).  `processQuery` overwrites every request's strategy
with `'keyword'` before dispatch: on any non-cached call the reported
strategy is `'keyword'`, the documents are exactly the store's keyword
search results, and the response is entirely independent of the store's
vector and advanced-RAG operations. -/
theorem processQuery_always_keyword (store store' : StoreOps)
    (timing : PerformanceMetrics) (sid : Str) (st : OrchState)
    (req : QueryRequest)
    (hkw : store.keywordSearch = store'.keywordSearch)
    (hmiss : req.useCache = false ∨
      cacheLookup st.cache
        (getCacheKey { req with searchType := some SearchType.keyword }) = none) :
    (processQuery store timing sid st req).1.searchStrategy = "keyword".toList ∧
    (processQuery store timing sid st req).1.documents
      = store.keywordSearch req.query (jsOrNat req.limit 10) ∧
    processQuery store timing sid st req = processQuery store' timing sid st req := by
  have hscrut :
      (if ({ req with searchType := some SearchType.keyword} :
            QueryRequest).useCache = true then
        cacheLookup st.cache
          (getCacheKey { req with searchType := some SearchType.keyword })
      else none) = none := by
    rcases hmiss with hf | hn
    · have hcond : ¬(({ req with searchType := some SearchType.keyword} :
          QueryRequest).useCache = true) := by
        show ¬(req.useCache = true)
        simp [hf]
      rw [if_neg hcond]
    · split
      · exact hn
      · rfl
  unfold processQuery
  dsimp only
  rw [hscrut]
  refine ⟨rfl, rfl, ?_⟩
  simp only [searchDocuments, hkw]

/-- Witness for `processQuery_always_keyword`: applied at the concrete
vector-requesting call, hypotheses discharged by `rfl`. -/
theorem processQuery_always_keyword_witness :
    (processQuery storeC2 timing0 ['s'] st0 reqVec).1.searchStrategy
      = "keyword".toList ∧
    (processQuery storeC2 timing0 ['s'] st0 reqVec).1.documents
      = storeC2.keywordSearch reqVec.query (jsOrNat reqVec.limit 10) :=
  ⟨(processQuery_always_keyword storeC2 storeC2 timing0 ['s'] st0 reqVec rfl
      (Or.inl rfl)).1,
   (processQuery_always_keyword storeC2 storeC2 timing0 ['s'] st0 reqVec rfl
      (Or.inl rfl)).2.1⟩

/-! ## §4.3 IngestionPipeline — `ETLPipeline`

Embeds `runFullPipeline` / `processHybridBatch` /
`processHybridDocumentInMemory` / `uploadBatchToDatabase` and the store
helpers they call.  External collaborators are the `EtlEnv` oracles: the
BRDR crawl (whose `filterExisting` option is accepted by
`BRDRCrawler.crawlDocuments` but never referenced in its body, so a re-run
re-crawls every document), the markdown file lookup, and the embedding
provider (`none` models a per-chunk failure, which the source logs and
skips).  Store writes are modelled as always succeeding, so the per-batch
catch path never fires; the `Promise.all` fan-out inside one processing
batch is order-independent in its effects and is modelled sequentially.
Only the `doc_id` of the crawled metadata is retained (the other columns
are copied verbatim into the record and read by no embedded code
path). -/

/-- A document crawled from the BRDR API (metadata payload reduced to the
id, see section comment). -/
structure CrawledDoc where
  docId : Str
  deriving DecidableEq, Repr

/-- A `brdr_documents` row (fields the embedding reads). -/
structure DbDocRecord where
  docId : Str
  embedding : Option (List ℚ)
  deriving DecidableEq, Repr

/-- A `brdr_documents_data` row as written by the pipeline. -/
structure DbChunkRecord where
  docId : Str
  chunkId : Nat
  content : Str
  embedding : Option (List ℚ)
  deriving DecidableEq, Repr

/-- The document store state. -/
structure DB where
  docs : List DbDocRecord
  chunks : List DbChunkRecord
  deriving DecidableEq, Repr

/-- `SupabaseService.getDocumentByDocId`. -/
def getDocumentByDocId (db : DB) (id : Str) : Option DbDocRecord :=
  db.docs.find? (fun d => d.docId == id)

/-- `SupabaseService.upsertDocument` (`doc_id` is the unique key). -/
def upsertDocument (db : DB) (rec : DbDocRecord) : DB :=
  if db.docs.any (fun d => d.docId == rec.docId) then
    { db with docs := db.docs.map (fun d => if d.docId == rec.docId then rec else d) }
  else { db with docs := db.docs ++ [rec] }

/-- `SupabaseService.insertDocumentChunks`. -/
def insertDocumentChunks (db : DB) (cs : List DbChunkRecord) : DB :=
  { db with chunks := db.chunks ++ cs }

/-- A processed markdown document (`ProcessedDocument`; title/content
metadata omitted — no embedded path reads them). -/
structure ProcessedDoc where
  docId : Str
  chunks : List PageChunk
  deriving DecidableEq, Repr

/-- The external collaborators of the pipeline. -/
structure EtlEnv where
  crawl : List CrawledDoc
  mdLookup : Str → Option ProcessedDoc
  embed : Str → Option (List ℚ)

/-- The TS `ETLOptions` (chunking options unused by the embedded paths). -/
structure ETLOptions where
  maxDocuments : Option Nat
  batchSize : Option Nat
  databaseBatchSize : Option Nat
  skipExisting : Bool
  generateEmbeddings : Option Bool
  deriving DecidableEq, Repr

/-- The TS `ETLProgress` counters (phase and timestamps omitted). -/
structure Prog where
  documentsProcessed : Nat
  documentsSkipped : Nat
  totalDocuments : Nat
  chunksCreated : Nat
  embeddingsGenerated : Nat
  errors : List Str
  deriving DecidableEq, Repr

/-- `ETLPipeline.generateEmbeddings`: skipped entirely when
`generateEmbeddings === false`; otherwise each chunk gets its embedding
attached, a provider failure leaving the chunk unembedded and processing
continuing. -/
def generateEmbeddings (env : EtlEnv) (opts : ETLOptions) (p : Prog)
    (chunks : List PageChunk) : Prog × List PageChunk :=
  if opts.generateEmbeddings == some false then (p, chunks)
  else
    chunks.foldl (fun acc c =>
      match env.embed c.cleanContent with
      | some e =>
          ({ acc.1 with embeddingsGenerated := acc.1.embeddingsGenerated + 1 },
           acc.2 ++ [{ c with embedding := some e }])
      | none => (acc.1, acc.2 ++ [c])) (p, [])

/-- `ETLPipeline.processHybridDocumentInMemory`: with `skipExisting`, an
existing document counts as skipped and yields the empty work item `{}`;
a missing markdown file also yields the empty work item (metadata-only);
otherwise the chunks are counted and embedded.  The two `none` outcomes
are indistinguishable — exactly as `{}` and
`{markdownDoc: undefined, chunks: undefined}` are in the source. -/
def processHybridDocumentInMemory (env : EtlEnv) (opts : ETLOptions)
    (db : DB) (p : Prog) (doc : CrawledDoc) :
    Prog × Option (ProcessedDoc × List PageChunk) :=
  if opts.skipExisting && (getDocumentByDocId db doc.docId).isSome then
    ({ p with documentsSkipped := p.documentsSkipped + 1 }, none)
  else
    match env.mdLookup doc.docId with
    | none => (p, none)
    | some md =>
        let p1 := { p with chunksCreated := p.chunksCreated + md.chunks.length }
        let pc := generateEmbeddings env opts p1 md.chunks
        (pc.1, some (md, pc.2))

/-- `ETLPipeline.storeHybridDocument`: upsert the document record with the
first chunk's embedding as representative, then insert the chunk rows
(`chunk_id := pageNumber`; the source writes them in sub-batches of 50,
which appends the same rows). -/
def storeHybridDocument (db : DB) (doc : CrawledDoc) (md : ProcessedDoc)
    (chunks : List PageChunk) : DB :=
  let dbDoc : DbDocRecord :=
    { docId := doc.docId, embedding := chunks.head?.bind (fun c => c.embedding) }
  insertDocumentChunks (upsertDocument db dbDoc)
    (chunks.map (fun c =>
      { docId := doc.docId, chunkId := c.pageNumber
        content := c.cleanContent, embedding := c.embedding }))

/-- `ETLPipeline.storeMetadataOnly`: an early return when the document
already exists, else upsert a record with no embedding. -/
def storeMetadataOnly (db : DB) (doc : CrawledDoc) : DB :=
  match getDocumentByDocId db doc.docId with
  | some _ => db
  | none => upsertDocument db { docId := doc.docId, embedding := none }

/-- `ETLPipeline.uploadBatchToDatabase`: store each buffered work item
(hybrid when chunks were produced, metadata-only otherwise — which
includes every skipped document) and count it as processed.  Store writes
succeed in this model, so the catch path that would record an error
instead of counting never fires. -/
def uploadBatchToDatabase (db : DB) (p : Prog)
    (batch : List (CrawledDoc × Option (ProcessedDoc × List PageChunk))) :
    DB × Prog :=
  batch.foldl (fun acc item =>
    let db' :=
      match item.2 with
      | some mdcs => storeHybridDocument acc.1 item.1 mdcs.1 mdcs.2
      | none => storeMetadataOnly acc.1 item.1
    (db', { acc.2 with documentsProcessed := acc.2.documentsProcessed + 1 }))
    (db, p)

/-- Split into processing batches of `n` (the source's slice loop; a batch
size of zero would never advance in JS and is clamped to 1 here). -/
def chunksOf {α : Type} (n : Nat) : List α → List (List α)
  | [] => []
  | x :: xs =>
      (x :: xs).take (n.max 1) :: chunksOf n ((x :: xs).drop (n.max 1))
termination_by l => l.length
decreasing_by
  have h1 : 1 ≤ n.max 1 := Nat.le_max_right n 1
  simp only [List.length_drop, List.length_cons]
  omega

/-- `Promise.all` over one processing batch: every document is processed
against the database state as of the batch start. -/
def processBatchDocs (env : EtlEnv) (opts : ETLOptions) (db : DB) (p : Prog)
    (docs : List CrawledDoc) :
    Prog × List (CrawledDoc × Option (ProcessedDoc × List PageChunk)) :=
  docs.foldl (fun acc doc =>
    let pw := processHybridDocumentInMemory env opts db acc.1 doc
    (pw.1, acc.2 ++ [(doc, pw.2)])) (p, [])

/-- The batching loop of `processHybridBatch`: results accumulate in the
buffer, which is flushed to the store once it reaches
`databaseBatchSize` — and always at the last processing batch (the
source's `i + batchSize >= length` condition). -/
def processBatchesGo (env : EtlEnv) (opts : ETLOptions) (dbBatchSize : Nat) :
    List (List CrawledDoc) →
    List (CrawledDoc × Option (ProcessedDoc × List PageChunk)) →
    DB → Prog → DB × Prog
  | [], _, db, p => (db, p)
  | [b], buf, db, p =>
      let pr := processBatchDocs env opts db p b
      uploadBatchToDatabase db pr.1 (buf ++ pr.2)
  | b :: b2 :: rest, buf, db, p =>
      let pr := processBatchDocs env opts db p b
      let buf' := buf ++ pr.2
      if dbBatchSize ≤ buf'.length then
        let dbp := uploadBatchToDatabase db pr.1 buf'
        processBatchesGo env opts dbBatchSize (b2 :: rest) [] dbp.1 dbp.2
      else processBatchesGo env opts dbBatchSize (b2 :: rest) buf' db pr.1

/-- `ETLPipeline.processHybridBatch` (defaults: processing batches of 10,
database flushes of 50). -/
def processHybridBatch (env : EtlEnv) (opts : ETLOptions) (db : DB) (p : Prog)
    (docs : List CrawledDoc) : DB × Prog :=
  processBatchesGo env opts (opts.databaseBatchSize.getD 50)
    (chunksOf (opts.batchSize.getD 10) docs) [] db p

/-- `ETLPipeline.crawlApiDocuments`: the crawler's current corpus, sliced
to `maxDocuments` when set (the page arithmetic `maxPages = ceil(m/20)`
fetches at least `m` and the result is sliced to `m`).  The
`filterExisting: skipExisting || true` argument is dead in the crawler. -/
def crawlApiDocuments (env : EtlEnv) (opts : ETLOptions) : List CrawledDoc :=
  match opts.maxDocuments with
  | some m => env.crawl.take m
  | none => env.crawl

/-- The TS `ETLResult`. -/
structure ETLResult where
  success : Bool
  documentsProcessed : Nat
  chunksCreated : Nat
  embeddingsGenerated : Nat
  errors : List Str
  progress : Prog
  deriving DecidableEq, Repr

/-- `ETLPipeline.runFullPipeline` (connection test succeeds; run-level
`errors` stays empty since store writes succeed in this model). -/
def runFullPipeline (env : EtlEnv) (opts : ETLOptions) (db : DB) :
    ETLResult × DB :=
  let apiDocuments := crawlApiDocuments env opts
  let p1 : Prog :=
    { documentsProcessed := 0, documentsSkipped := 0
      totalDocuments := apiDocuments.length
      chunksCreated := 0, embeddingsGenerated := 0, errors := [] }
  if apiDocuments.isEmpty then
    ({ success := true, documentsProcessed := p1.documentsProcessed
       chunksCreated := p1.chunksCreated
       embeddingsGenerated := p1.embeddingsGenerated
       errors := [], progress := p1 }, db)
  else
    let dbp := processHybridBatch env opts db p1 apiDocuments
    ({ success := true, documentsProcessed := dbp.2.documentsProcessed
       chunksCreated := dbp.2.chunksCreated
       embeddingsGenerated := dbp.2.embeddingsGenerated
       errors := [], progress := dbp.2 }, dbp.1)

theorem processDoc_skip (env : EtlEnv) (opts : ETLOptions) (db : DB) (p : Prog)
    (d : CrawledDoc) (hskip : opts.skipExisting = true)
    (hex : (getDocumentByDocId db d.docId).isSome = true) :
    processHybridDocumentInMemory env opts db p d
      = ({ p with documentsSkipped := p.documentsSkipped + 1 }, none) := by
  unfold processHybridDocumentInMemory
  rw [if_pos]
  rw [hskip, hex]
  rfl

theorem processBatchDocs_skip (env : EtlEnv) (opts : ETLOptions) (db : DB)
    (docs : List CrawledDoc) (hskip : opts.skipExisting = true)
    (hall : ∀ d ∈ docs, (getDocumentByDocId db d.docId).isSome = true) :
    ∀ (p : Prog) (acc : List (CrawledDoc × Option (ProcessedDoc × List PageChunk))),
    docs.foldl (fun acc doc =>
        let pw := processHybridDocumentInMemory env opts db acc.1 doc
        (pw.1, acc.2 ++ [(doc, pw.2)])) (p, acc)
      = ({ p with documentsSkipped := p.documentsSkipped + docs.length },
         acc ++ docs.map (fun d => (d, none))) := by
  induction docs with
  | nil => intro p acc; simp
  | cons d ds ih =>
      intro p acc
      simp only [List.foldl_cons]
      rw [processDoc_skip env opts db p d hskip (hall d (by simp))]
      rw [ih (fun d hd => hall d (by simp [hd])) _ _]
      simp [Nat.add_assoc, Nat.add_comm 1 ds.length]

theorem uploadBatch_noop (db : DB)
    (batch : List (CrawledDoc × Option (ProcessedDoc × List PageChunk)))
    (hall : ∀ x ∈ batch, x.2 = none ∧
        (getDocumentByDocId db x.1.docId).isSome = true) :
    ∀ (p : Prog),
    uploadBatchToDatabase db p batch
      = (db, { p with documentsProcessed := p.documentsProcessed + batch.length }) := by
  induction batch with
  | nil => intro p; simp [uploadBatchToDatabase]
  | cons x xs ih =>
      intro p
      obtain ⟨hx2, hxex⟩ := hall x (by simp)
      obtain ⟨r, hr⟩ := Option.isSome_iff_exists.mp hxex
      unfold uploadBatchToDatabase
      simp only [List.foldl_cons, hx2]
      have hstore : storeMetadataOnly db x.1 = db := by
        unfold storeMetadataOnly
        rw [hr]
      rw [hstore]
      have := ih (fun y hy => hall y (by simp [hy]))
        { p with documentsProcessed := p.documentsProcessed + 1 }
      unfold uploadBatchToDatabase at this
      rw [this]
      simp [Nat.add_assoc, Nat.add_comm 1 xs.length]

theorem processBatchesGo_skip (env : EtlEnv) (opts : ETLOptions) (k : Nat)
    (hskip : opts.skipExisting = true) (db : DB) :
    ∀ (batches : List (List CrawledDoc))
      (buf : List (CrawledDoc × Option (ProcessedDoc × List PageChunk)))
      (p : Prog),
    batches ≠ [] →
    (∀ b ∈ batches, ∀ d ∈ b, (getDocumentByDocId db d.docId).isSome = true) →
    (∀ x ∈ buf, x.2 = none ∧
        (getDocumentByDocId db x.1.docId).isSome = true) →
    processBatchesGo env opts k batches buf db p
      = (db, { p with
          documentsSkipped := p.documentsSkipped + batches.flatten.length,
          documentsProcessed :=
            p.documentsProcessed + buf.length + batches.flatten.length }) := by
  intro batches
  induction batches with
  | nil => intro buf p hne _ _; exact absurd rfl hne
  | cons b rest ih =>
      intro buf p _ hb hbuf
      have hbex : ∀ d ∈ b, (getDocumentByDocId db d.docId).isSome = true :=
        hb b (by simp)
      have hbuf' : ∀ x ∈ buf ++ b.map (fun d => (d, none)),
          x.2 = none ∧ (getDocumentByDocId db x.1.docId).isSome = true := by
        intro x hx
        rcases List.mem_append.mp hx with hl | hrm
        · exact hbuf x hl
        · obtain ⟨d, hd, hxd⟩ := List.mem_map.mp hrm
          subst hxd
          exact ⟨rfl, hbex d hd⟩
      rcases rest with _ | ⟨b2, rest'⟩
      · unfold processBatchesGo
        dsimp only
        unfold processBatchDocs
        rw [processBatchDocs_skip env opts db b hskip hbex p []]
        simp only [List.nil_append]
        rw [uploadBatch_noop db (buf ++ b.map (fun d => (d, none))) hbuf' _]
        simp [Nat.add_assoc]
      · unfold processBatchesGo
        dsimp only
        unfold processBatchDocs
        rw [processBatchDocs_skip env opts db b hskip hbex p []]
        simp only [List.nil_append]
        have hrest : ∀ b' ∈ b2 :: rest', ∀ d ∈ b',
            (getDocumentByDocId db d.docId).isSome = true := by
          intro b' hb' d hd
          exact hb b' (by simp [hb']) d hd
        split
        · rw [uploadBatch_noop db (buf ++ b.map (fun d => (d, none))) hbuf' _]
          rw [ih [] _ (by simp) hrest (by simp)]
          simp only [List.flatten_cons, List.length_append, List.length_nil,
            List.length_map]
          refine Prod.ext rfl ?_
          simp only [Prog.mk.injEq]
          exact ⟨by omega, by omega, trivial, trivial, trivial, trivial⟩
        · rw [ih (buf ++ b.map (fun d => (d, none))) _ (by simp) hrest hbuf']
          simp only [List.flatten_cons, List.length_append, List.length_map]
          refine Prod.ext rfl ?_
          simp only [Prog.mk.injEq]
          exact ⟨by omega, by omega, trivial, trivial, trivial, trivial⟩

theorem chunksOf_flatten {α : Type} (n : Nat) : ∀ (l : List α),
    (chunksOf n l).flatten = l := by
  have key : ∀ (k : Nat) (l : List α), l.length ≤ k →
      (chunksOf n l).flatten = l := by
    intro k
    induction k with
    | zero =>
        intro l hl
        have : l = [] := List.length_eq_zero.mp (Nat.le_zero.mp hl)
        subst this
        simp [chunksOf]
    | succ k ih =>
        intro l hl
        rcases l with _ | ⟨x, xs⟩
        · simp [chunksOf]
        · rw [chunksOf]
          simp only [List.flatten_cons]
          rw [ih ((x :: xs).drop (n.max 1)) (by
            have h1 : 1 ≤ n.max 1 := Nat.le_max_right n 1
            simp only [List.length_drop, List.length_cons]
            simp only [List.length_cons] at hl
            omega)]
          exact List.take_append_drop _ _
  intro l
  exact key l.length l le_rfl

theorem chunksOf_ne_nil {α : Type} (n : Nat) (x : α) (xs : List α) :
    chunksOf n (x :: xs) ≠ [] := by
  rw [chunksOf]
  simp

/-- C4 (amended).  Re-running the pipeline with `skipExisting = true` over
a source whose every document is already in the store (the state a
complete first run leaves) skips all `N` documents, inserts no chunk rows
and leaves the store byte-for-byte unchanged — but the run result reports
`documentsProcessed = N`, not `0`: each skipped document's empty work item
flows into `uploadBatchToDatabase`, whose metadata-only path early-returns
on the existing record and then counts the document as processed. -/
theorem runFullPipeline_rerun (env : EtlEnv) (opts : ETLOptions) (db : DB)
    (hskip : opts.skipExisting = true)
    (hall : ∀ d ∈ crawlApiDocuments env opts,
        (getDocumentByDocId db d.docId).isSome = true) :
    (runFullPipeline env opts db).1.progress.documentsSkipped
        = (crawlApiDocuments env opts).length ∧
    (runFullPipeline env opts db).1.documentsProcessed
        = (crawlApiDocuments env opts).length ∧
    (runFullPipeline env opts db).2 = db := by
  unfold runFullPipeline
  dsimp only
  rcases hdocs : crawlApiDocuments env opts with _ | ⟨d0, ds⟩
  · simp
  · rw [hdocs] at hall
    simp only [List.isEmpty_cons, if_false, Bool.false_eq_true]
    unfold processHybridBatch
    rw [processBatchesGo_skip env opts (opts.databaseBatchSize.getD 50) hskip db
      (chunksOf (opts.batchSize.getD 10) (d0 :: ds)) [] _
      (chunksOf_ne_nil _ _ _)
      (by
        intro b hb d hd
        apply hall
        have : d ∈ (chunksOf (opts.batchSize.getD 10) (d0 :: ds)).flatten := by
          exact List.mem_flatten.mpr ⟨b, hb, hd⟩
        rwa [chunksOf_flatten] at this)
      (by simp)]
    simp [chunksOf_flatten]

/-- The one-document source of the second-run scenario. -/
def etlEnv1 : EtlEnv :=
  { crawl := [{ docId := ['d'] }]
    mdLookup := fun _ => none
    embed := fun _ => none }

/-- `skipExisting = true`, everything else defaulted. -/
def etlOpts1 : ETLOptions :=
  { maxDocuments := none, batchSize := none, databaseBatchSize := none
    skipExisting := true, generateEmbeddings := none }

/-- The store state after the first run: the document is present. -/
def etlDb1 : DB :=
  { docs := [{ docId := ['d'], embedding := none }], chunks := [] }

/-- Witness for `runFullPipeline_rerun`: the one-document re-run. -/
theorem runFullPipeline_rerun_witness :
    (runFullPipeline etlEnv1 etlOpts1 etlDb1).1.progress.documentsSkipped
        = (crawlApiDocuments etlEnv1 etlOpts1).length ∧
    (runFullPipeline etlEnv1 etlOpts1 etlDb1).1.documentsProcessed
        = (crawlApiDocuments etlEnv1 etlOpts1).length ∧
    (runFullPipeline etlEnv1 etlOpts1 etlDb1).2 = etlDb1 :=
  runFullPipeline_rerun etlEnv1 etlOpts1 etlDb1 rfl (by decide)

/-- C4 counterexample.  Re-running over the unchanged one-document source
with `skipExisting = true`: the second run reports `skipped = 1` and
inserts nothing, but `documentsProcessed = 1`, not the `0` the claim
states. -/
theorem runFullPipeline_rerun_counterexample :
    (runFullPipeline etlEnv1 etlOpts1 etlDb1).1.progress.documentsSkipped = 1 ∧
    (runFullPipeline etlEnv1 etlOpts1 etlDb1).1.documentsProcessed = 1 ∧
    (runFullPipeline etlEnv1 etlOpts1 etlDb1).2 = etlDb1 := by
  have h1 : chunksOf 10 [({ docId := ['d'] } : CrawledDoc)]
      = [[{ docId := ['d'] }]] := by
    rw [chunksOf]
    simp [chunksOf]
  refine ⟨?_, ?_, ?_⟩ <;>
    simp [runFullPipeline, crawlApiDocuments, etlEnv1, etlOpts1, etlDb1,
      processHybridBatch, h1, processBatchesGo, processBatchDocs,
      processHybridDocumentInMemory, getDocumentByDocId, List.find?,
      uploadBatchToDatabase, storeMetadataOnly]
